import Mathlib

/-!
Shallow embedding of the authenticated BBO scraping engine of
`src/pages/2_BBO.py`: cookie-text parsing, the timezone handshake, login
form assembly, result fetching with the table-location fallback, and
player-statistics extraction.  External effects are modelled as oracle
inputs: an HTTP world maps the index of each issued request to an
optional response (`none` models a raised network exception), and every
response carries both its raw text and the parsed view of its markup
that BeautifulSoup would produce.  Python floats are modelled as
rationals; `str.strip`, `str.split`, `int(...)`, `float(...)` and
`json.loads` are re-implemented below on ordinary strings.
-/

namespace BridgeBBO

/-! ### Python string primitives -/

/-- Python `str.strip()` on a character list. -/
def stripChars (l : List Char) : List Char :=
  ((l.dropWhile Char.isWhitespace).reverse.dropWhile Char.isWhitespace).reverse

/-- Python `str.strip()`. -/
def pyStrip (s : String) : String := ⟨stripChars s.data⟩

/-- Contiguous-sublist test on character lists. -/
def infixOfB (p : List Char) : List Char → Bool
  | [] => p.isEmpty
  | c :: rest => p.isPrefixOf (c :: rest) || infixOfB p rest

/-- Python `pat in s` substring test. -/
def containsSub (pat s : String) : Bool := infixOfB pat.data s.data

/-- Python `str.split(c)` for a one-character separator (keeps empty parts). -/
def splitOnChar (c : Char) : List Char → List (List Char)
  | [] => [[]]
  | a :: rest =>
    if a = c then [] :: splitOnChar c rest
    else
      match splitOnChar c rest with
      | [] => [[a]]
      | l :: ls => (a :: l) :: ls

/-- Python `str.split(c, 1)`: the part before the first occurrence and,
when the separator occurs, the remainder after it. -/
def splitFirst (c : Char) : List Char → List Char × Option (List Char)
  | [] => ([], Option.none)
  | a :: rest =>
    if a = c then ([], some rest)
    else
      let p := splitFirst c rest
      (a :: p.1, p.2)

/-- Python `c.join(parts)` at character-list level. -/
def joinChar (c : Char) : List (List Char) → List Char
  | [] => []
  | [l] => l
  | l :: ls => l ++ c :: joinChar c ls

/-! ### Python numeric literals (floats as rationals) -/

/-- Decimal value of a digit string. -/
def digitsVal (l : List Char) : ℕ := l.foldl (fun a c => a * 10 + (c.toNat - 48)) 0

/-- Nonempty and all decimal digits. -/
def allDigits (l : List Char) : Bool := !l.isEmpty && l.all Char.isDigit

/-- Python `int(s)` on decimal text: optional sign, then digits only. -/
def pyInt? (s : String) : Option ℤ :=
  match stripChars s.data with
  | '+' :: rest => if allDigits rest then some (digitsVal rest : ℤ) else Option.none
  | '-' :: rest => if allDigits rest then some (-(digitsVal rest : ℤ)) else Option.none
  | l => if allDigits l then some ((digitsVal l : ℤ)) else Option.none

/-- Mantissa of a Python float literal: digits with an optional decimal
point, at least one digit overall; returns its value and the tail. -/
def parseMant (l : List Char) : Option (ℚ × List Char) :=
  let ip := l.takeWhile Char.isDigit
  let rest := l.dropWhile Char.isDigit
  match rest with
  | '.' :: rest2 =>
    let fp := rest2.takeWhile Char.isDigit
    if ip.isEmpty && fp.isEmpty then Option.none
    else
      some ((digitsVal ip : ℚ) + (digitsVal fp : ℚ) / ((10 : ℚ) ^ fp.length),
        rest2.dropWhile Char.isDigit)
  | _ => if ip.isEmpty then Option.none else some ((digitsVal ip : ℚ), rest)

/-- Optional exponent part of a Python float literal. -/
def parseExpPart (q : ℚ) (l : List Char) : Option ℚ :=
  match l with
  | [] => some q
  | e :: rest =>
    if e = 'e' ∨ e = 'E' then
      match rest with
      | '+' :: ds => if allDigits ds then some (q * (10 : ℚ) ^ digitsVal ds) else Option.none
      | '-' :: ds => if allDigits ds then some (q / (10 : ℚ) ^ digitsVal ds) else Option.none
      | ds => if allDigits ds then some (q * (10 : ℚ) ^ digitsVal ds) else Option.none
    else Option.none

/-- Python `float(s)` on finite decimal text (`inf`/`nan` not modelled). -/
def pyFloat? (s : String) : Option ℚ :=
  let go : List Char → Option ℚ := fun l =>
    match parseMant l with
    | some (q, rest) => parseExpPart q rest
    | Option.none => Option.none
  match stripChars s.data with
  | '+' :: rest => go rest
  | '-' :: rest => (go rest).map Neg.neg
  | l => go l

/-! ### Python dictionaries (insertion-ordered association lists) -/

/-- Python `d[k] = v`: update the first binding in insertion order or
append a new one. -/
def pyInsert {κ α : Type} [DecidableEq κ] : List (κ × α) → κ → α → List (κ × α)
  | [], k, v => [(k, v)]
  | kv :: rest, k, v =>
    if kv.1 = k then (k, v) :: rest else kv :: pyInsert rest k v

/-- Python `d[k]` / `k in d` lookup. -/
def pyLookup {κ α : Type} [DecidableEq κ] : List (κ × α) → κ → Option α
  | [], _ => Option.none
  | kv :: rest, k => if kv.1 = k then some kv.2 else pyLookup rest k

/-- Python `d.update(l)`. -/
def pyUpdate {κ α : Type} [DecidableEq κ] (d l : List (κ × α)) : List (κ × α) :=
  l.foldl (fun a kv => pyInsert a kv.1 kv.2) d

/-! ### Python values and `json.loads` -/

/-- Python values produced by `json.loads` and by the cookie parser. -/
inductive Py where
  | nullv : Py
  | boolv : Bool → Py
  | intV : ℤ → Py
  | fl : ℚ → Py
  | str : String → Py
  | list : List Py → Py
  | dict : List (Py × Py) → Py

mutual

/-- Structural equality of Python values (used for dict keys; the
Python-specific unification of equal int and float keys is not needed
by any code path modelled here). -/
def pyBeq : Py → Py → Bool
  | Py.nullv, Py.nullv => true
  | Py.boolv a, Py.boolv b => a = b
  | Py.intV a, Py.intV b => a = b
  | Py.fl a, Py.fl b => a = b
  | Py.str a, Py.str b => a = b
  | Py.list a, Py.list b => pyBeqList a b
  | Py.dict a, Py.dict b => pyBeqEntries a b
  | _, _ => false

/-- Elementwise `pyBeq` on lists. -/
def pyBeqList : List Py → List Py → Bool
  | [], [] => true
  | x :: xs, y :: ys => pyBeq x y && pyBeqList xs ys
  | _, _ => false

/-- Elementwise `pyBeq` on dict entries. -/
def pyBeqEntries : List (Py × Py) → List (Py × Py) → Bool
  | [], [] => true
  | kv :: xs, kw :: ys => pyBeq kv.1 kw.1 && pyBeq kv.2 kw.2 && pyBeqEntries xs ys
  | _, _ => false

end

/-- Python `d[k] = v` on a dict with Python-value keys. -/
def pyInsertPy : List (Py × Py) → Py → Py → List (Py × Py)
  | [], k, v => [(k, v)]
  | kv :: rest, k, v =>
    if pyBeq kv.1 k then (k, v) :: rest else kv :: pyInsertPy rest k v

/-- Python `d[k]` on a dict with Python-value keys. -/
def pyLookupPy : List (Py × Py) → Py → Option Py
  | [], _ => Option.none
  | kv :: rest, k => if pyBeq kv.1 k then some kv.2 else pyLookupPy rest k

/-- Python `c[k]` for a string key `k`: a dictionary lookup succeeds when
the key is present; any other receiver (or a missing key) raises, which
is modelled as `none`. -/
def pySubscriptStr (c : Py) (k : String) : Option Py :=
  match c with
  | Py.dict entries => pyLookupPy entries (Py.str k)
  | _ => Option.none

/-- JSON insignificant whitespace. -/
def jsonWs (c : Char) : Bool := c = ' ' ∨ c = '\t' ∨ c = '\n' ∨ c = '\r'

/-- Skip JSON whitespace. -/
def skipWs (l : List Char) : List Char := l.dropWhile jsonWs

/-- Hexadecimal digit value. -/
def hexVal? (c : Char) : Option ℕ :=
  if c.isDigit then some (c.toNat - 48)
  else if 'a' ≤ c ∧ c ≤ 'f' then some (c.toNat - 87)
  else if 'A' ≤ c ∧ c ≤ 'F' then some (c.toNat - 55)
  else Option.none

/-- Parse the body of a JSON string literal (after the opening quote);
`acc` holds the characters read so far, in reverse. -/
def parseJStr (acc : List Char) : List Char → Option (String × List Char)
  | [] => Option.none
  | c :: rest =>
    if c = '"' then some (⟨acc.reverse⟩, rest)
    else if c = '\\' then
      match rest with
      | [] => Option.none
      | e :: rest1 =>
        if e = '"' then parseJStr ('"' :: acc) rest1
        else if e = '\\' then parseJStr ('\\' :: acc) rest1
        else if e = '/' then parseJStr ('/' :: acc) rest1
        else if e = 'b' then parseJStr ('\x08' :: acc) rest1
        else if e = 'f' then parseJStr ('\x0c' :: acc) rest1
        else if e = 'n' then parseJStr ('\n' :: acc) rest1
        else if e = 'r' then parseJStr ('\r' :: acc) rest1
        else if e = 't' then parseJStr ('\t' :: acc) rest1
        else if e = 'u' then
          match rest1 with
          | h1 :: h2 :: h3 :: h4 :: rest2 =>
            match hexVal? h1, hexVal? h2, hexVal? h3, hexVal? h4 with
            | some a, some b, some c3, some d =>
              parseJStr (Char.ofNat (((a * 16 + b) * 16 + c3) * 16 + d) :: acc) rest2
            | _, _, _, _ => Option.none
          | _ => Option.none
        else Option.none
    else parseJStr (c :: acc) rest

/-- Exponent of a JSON number. -/
def parseJExp (l : List Char) : Option (ℤ × List Char) :=
  let p : Bool × List Char :=
    match l with
    | '+' :: r => (false, r)
    | '-' :: r => (true, r)
    | _ => (false, l)
  let ds := p.2.takeWhile Char.isDigit
  if ds.isEmpty then Option.none
  else
    some ((if p.1 then -(digitsVal ds : ℤ) else (digitsVal ds : ℤ)), p.2.dropWhile Char.isDigit)

/-- Assemble a JSON number: like Python, a number with a fraction or an
exponent decodes to a float, otherwise to an int. -/
def jsonNumOfParts (neg : Bool) (ip : List Char) (fp : Option (List Char)) (ex : Option ℤ) : Py :=
  match fp, ex with
  | Option.none, Option.none =>
    Py.intV (if neg then -(digitsVal ip : ℤ) else (digitsVal ip : ℤ))
  | _, _ =>
    let base : ℚ := (digitsVal ip : ℚ) +
      (match fp with
       | some f => (digitsVal f : ℚ) / ((10 : ℚ) ^ f.length)
       | Option.none => 0)
    let v : ℚ := base * (10 : ℚ) ^ (ex.getD 0)
    Py.fl (if neg then -v else v)

/-- Parse a JSON number. -/
def parseJNum (l : List Char) : Option (Py × List Char) :=
  let p : Bool × List Char :=
    match l with
    | '-' :: r => (true, r)
    | _ => (false, l)
  let ip := p.2.takeWhile Char.isDigit
  if ip.isEmpty then Option.none
  else
    let r1 := p.2.dropWhile Char.isDigit
    match r1 with
    | '.' :: rr =>
      let fp := rr.takeWhile Char.isDigit
      if fp.isEmpty then Option.none
      else
        let r2 := rr.dropWhile Char.isDigit
        match r2 with
        | 'e' :: r3 =>
          (parseJExp r3).map (fun pr => (jsonNumOfParts p.1 ip (some fp) (some pr.1), pr.2))
        | 'E' :: r3 =>
          (parseJExp r3).map (fun pr => (jsonNumOfParts p.1 ip (some fp) (some pr.1), pr.2))
        | _ => some (jsonNumOfParts p.1 ip (some fp) Option.none, r2)
    | 'e' :: r3 =>
      (parseJExp r3).map (fun pr => (jsonNumOfParts p.1 ip Option.none (some pr.1), pr.2))
    | 'E' :: r3 =>
      (parseJExp r3).map (fun pr => (jsonNumOfParts p.1 ip Option.none (some pr.1), pr.2))
    | _ => some (jsonNumOfParts p.1 ip Option.none Option.none, r1)

mutual

/-- Parse one JSON value (fuelled recursive descent). -/
def parseJVal : ℕ → List Char → Option (Py × List Char)
  | 0, _ => Option.none
  | fuel + 1, l =>
    match skipWs l with
    | '{' :: rest => parseJObj fuel [] (skipWs rest)
    | '[' :: rest => parseJArr fuel [] (skipWs rest)
    | '"' :: rest => (parseJStr [] rest).map (fun pr => (Py.str pr.1, pr.2))
    | 't' :: 'r' :: 'u' :: 'e' :: rest => some (Py.boolv true, rest)
    | 'f' :: 'a' :: 'l' :: 's' :: 'e' :: rest => some (Py.boolv false, rest)
    | 'n' :: 'u' :: 'l' :: 'l' :: rest => some (Py.nullv, rest)
    | l1 => parseJNum l1

/-- Parse the members of a JSON object; duplicate keys follow Python's
last-one-wins dict construction. -/
def parseJObj : ℕ → List (Py × Py) → List Char → Option (Py × List Char)
  | 0, _, _ => Option.none
  | fuel + 1, acc, l =>
    match l with
    | '}' :: rest => if acc.isEmpty then some (Py.dict acc, rest) else Option.none
    | '"' :: rest =>
      match parseJStr [] rest with
      | some (k, r1) =>
        match skipWs r1 with
        | ':' :: r2 =>
          match parseJVal fuel r2 with
          | some (v, r3) =>
            let acc1 := pyInsertPy acc (Py.str k) v
            match skipWs r3 with
            | ',' :: r4 => parseJObj fuel acc1 (skipWs r4)
            | '}' :: r4 => some (Py.dict acc1, r4)
            | _ => Option.none
          | Option.none => Option.none
        | _ => Option.none
      | Option.none => Option.none
    | _ => Option.none

/-- Parse the elements of a JSON array. -/
def parseJArr : ℕ → List Py → List Char → Option (Py × List Char)
  | 0, _, _ => Option.none
  | fuel + 1, acc, l =>
    match l with
    | ']' :: rest => if acc.isEmpty then some (Py.list acc.reverse, rest) else Option.none
    | _ =>
      match parseJVal fuel l with
      | some (v, r1) =>
        match skipWs r1 with
        | ',' :: r2 => parseJArr fuel (v :: acc) (skipWs r2)
        | ']' :: r2 => some (Py.list (v :: acc).reverse, r2)
        | _ => Option.none
      | Option.none => Option.none

end

/-- Python `json.loads` (finite numbers only; `NaN`/`Infinity` literals
are not modelled). -/
def jsonParse (s : String) : Option Py :=
  match parseJVal (s.length + 1) s.data with
  | some (v, rest) => if (skipWs rest).isEmpty then some v else Option.none
  | Option.none => Option.none

/-! ### `parse_cookie_text` (src/pages/2_BBO.py lines 64-79) -/

/-- The dict comprehension over a decoded cookie list; `none` models the
comprehension raising on an element without subscriptable
`name`/`value` entries. -/
def cookieFold : List (Py × Py) → List Py → Option (List (Py × Py))
  | acc, [] => some acc
  | acc, c :: cs =>
    match pySubscriptStr c "name" with
    | some k =>
      match pySubscriptStr c "value" with
      | some v => cookieFold (pyInsertPy acc k v) cs
      | Option.none => Option.none
    | Option.none => Option.none

/-- The fallback branch of `parse_cookie_text`: newline-separated
`name=value` lines; a line without `=` is skipped; each kept line is
stripped and split at its first `=`. -/
def parse_cookie_lines (s : String) : Py :=
  Py.dict ((splitOnChar '\n' s.data).foldl
    (fun acc line =>
      if line.contains '=' then
        match splitFirst '=' (stripChars line) with
        | (k, some v) => pyInsertPy acc (Py.str ⟨k⟩) (Py.str ⟨v⟩)
        | (_, Option.none) => acc
      else acc) [])

/-- `parse_cookie_text`: try JSON first; a decoded list is turned into a
name-to-value dict; any other decoded value is returned as-is; on a
decode error or a raising comprehension, fall back to line parsing. -/
def parse_cookie_text (s : String) : Py :=
  match jsonParse s with
  | some (Py.list cs) =>
    match cookieFold [] cs with
    | some d => Py.dict d
    | Option.none => parse_cookie_lines s
  | some v => v
  | Option.none => parse_cookie_lines s

/-! ### Parsed-markup model

BeautifulSoup itself is an external library; a parsed document is
modelled by the two views the code reads from it: the document-ordered
list of `table` elements (with class list, id, `tr` count and the texts
of their `th` header cells) and the document-ordered list of `tr`
elements (with class list and child cells). -/

/-- A `th`/`td` cell: tag kind, class list, text. -/
structure Cell where
  th : Bool
  cls : List String
  text : String
deriving DecidableEq

/-- A `tr` element: class list and cells in document order. -/
structure Row where
  cls : List String
  cells : List Cell
deriving DecidableEq

/-- A `table` element as seen by the table-location code. -/
structure Table where
  cls : List String
  tid : Option String
  trCount : ℕ
  thTexts : List String
deriving DecidableEq

/-- A parsed document: its tables and its `tr` elements. -/
structure Doc where
  tables : List Table
  statRows : List Row
deriving DecidableEq

/-- A document with no tables and no rows. -/
def emptyDoc : Doc := ⟨[], []⟩

/-! ### Table location (src/pages/2_BBO.py lines 354-388) -/

/-- The known-selector loop: `table.body`, `table#hand_results`,
`table.hands`, `table.handlist`, tried in this order, each selector
returning the first matching table in document order. -/
def findKnownTable (ts : List Table) : Option Table :=
  match ts.find? (fun t => t.cls.contains "body") with
  | some t => some t
  | Option.none =>
  match ts.find? (fun t => t.tid = some "hand_results") with
  | some t => some t
  | Option.none =>
  match ts.find? (fun t => t.cls.contains "hands") with
  | some t => some t
  | Option.none => ts.find? (fun t => t.cls.contains "handlist")

/-- The generic-scan predicate: more than one `tr` row, and some header
cell with nonempty text whose lower-cased text contains "date". -/
def genericTableHit (t : Table) : Bool :=
  t.trCount > 1 &&
    (!t.thTexts.isEmpty && t.thTexts.any (fun h => h ≠ "" && containsSub "date" h.toLower))

/-- The generic fallback scan over all tables in document order. -/
def genericScanTable (ts : List Table) : Option Table := ts.find? genericTableHit

/-- Full table location: known selectors first, generic scan only when
none of them matched. -/
def locate_table (ts : List Table) : Option Table :=
  match findKnownTable ts with
  | some t => some t
  | Option.none => genericScanTable ts

/-! ### `extract_player_statistics` (src/pages/2_BBO.py lines 396-455) -/

/-- The aggregate summary; every field defaults to zero. -/
structure Stats where
  imps_total : ℚ
  imps_hands : ℤ
  imps_average : ℚ
  mps_average : ℚ
  mps_hands : ℤ
  total_masterpoints : ℚ
deriving DecidableEq

/-- The all-zero summary. -/
def zeroStats : Stats := ⟨0, 0, 0, 0, 0, 0⟩

/-- Rows selected by `find_all('tr', class_=['odd', 'even'])`. -/
def isOddEven (r : Row) : Bool := r.cls.contains "odd" || r.cls.contains "even"

/-- `row.find_all('th')`. -/
def thCells (r : Row) : List Cell := r.cells.filter (·.th)

/-- `row.find_all('td')`. -/
def tdCells (r : Row) : List Cell := r.cells.filter (fun c => !c.th)

/-- `row.find('td', class_=['score', 'negscore'])`. -/
def scoreNegCell (r : Row) : Option Cell :=
  r.cells.find? (fun c => !c.th && (c.cls.contains "score" || c.cls.contains "negscore"))

/-- `row.find('td', class_='score')`. -/
def scoreCellOnly (r : Row) : Option Cell :=
  r.cells.find? (fun c => !c.th && c.cls.contains "score")

/-- `row.find('td', class_='numhands')`. -/
def numhandsCell (r : Row) : Option Cell :=
  r.cells.find? (fun c => !c.th && c.cls.contains "numhands")

/-- Python `.replace('%', '')`. -/
def dropPercent (s : String) : String := ⟨s.data.filter (fun c => c ≠ '%')⟩

/-- Tail of the "IMPs Total" branch: the `numhands` cell sets
`imps_hands`; a malformed int raises (second component `true`). -/
def procNum1 (s : Stats) (r : Row) : Stats × Bool :=
  match numhandsCell r with
  | some c =>
    match pyInt? (pyStrip c.text) with
    | some n => ({ s with imps_hands := n }, false)
    | Option.none => (s, true)
  | Option.none => (s, false)

/-- Tail of the "MPs Average" branch: the `numhands` cell sets
`mps_hands`; a malformed int raises. -/
def procNum3 (s : Stats) (r : Row) : Stats × Bool :=
  match numhandsCell r with
  | some c =>
    match pyInt? (pyStrip c.text) with
    | some n => ({ s with mps_hands := n }, false)
    | Option.none => (s, true)
  | Option.none => (s, false)

/-- One iteration of the row loop of `extract_player_statistics`: the
returned flag is `true` when the Python body would raise (a malformed
`float(...)`/`int(...)`), which the function-level `except` turns into
returning the statistics accumulated so far. -/
def procRow (s : Stats) (r : Row) : Stats × Bool :=
  if (thCells r).isEmpty || (tdCells r).isEmpty then (s, false)
  else
    match thCells r with
    | [] => (s, false)
    | c0 :: _ =>
      let label := pyStrip c0.text
      if containsSub "IMPs Total" label then
        match scoreNegCell r with
        | some c =>
          match pyFloat? (pyStrip c.text) with
          | some q => procNum1 { s with imps_total := q } r
          | Option.none => (s, true)
        | Option.none => procNum1 s r
      else if containsSub "IMPs Average" label then
        match scoreNegCell r with
        | some c =>
          match pyFloat? (pyStrip c.text) with
          | some q => ({ s with imps_average := q }, false)
          | Option.none => (s, true)
        | Option.none => (s, false)
      else if containsSub "MPs Average" label then
        match scoreCellOnly r with
        | some c =>
          match pyFloat? (dropPercent (pyStrip c.text)) with
          | some q => procNum3 { s with mps_average := q } r
          | Option.none => (s, true)
        | Option.none => procNum3 s r
      else if containsSub "Total Masterpoints" label then
        match scoreCellOnly r with
        | some c =>
          match pyFloat? (pyStrip c.text) with
          | some q => ({ s with total_masterpoints := q }, false)
          | Option.none => (s, true)
        | Option.none => (s, false)
      else (s, false)

/-- The row loop: a raising row stops the loop and its partial effects
are returned (the Python `except` catches at function level). -/
def extractRows (s : Stats) : List Row → Stats
  | [] => s
  | r :: rs =>
    match procRow s r with
    | (s1, true) => s1
    | (s1, false) => extractRows s1 rs

/-- `extract_player_statistics(soup)`: total by construction, mirroring
the function-level try/except of the source. -/
def extract_player_statistics (doc : Doc) : Stats :=
  extractRows zeroStats (doc.statRows.filter isOddEven)

/-- Which of the four label branches a row enters, if any (`none` also
covers rows without both a `th` and a `td`). -/
def branchIdx (r : Row) : Option ℕ :=
  if (thCells r).isEmpty || (tdCells r).isEmpty then Option.none
  else
    match thCells r with
    | [] => Option.none
    | c0 :: _ =>
      let label := pyStrip c0.text
      if containsSub "IMPs Total" label then some 0
      else if containsSub "IMPs Average" label then some 1
      else if containsSub "MPs Average" label then some 2
      else if containsSub "Total Masterpoints" label then some 3
      else Option.none

/-- Whether the Python loop body would raise on this row (independent of
the statistics accumulated before it). -/
def rowRaises (r : Row) : Bool := (procRow zeroStats r).2

/-- Value written by the "IMPs Total"/"IMPs Average" score cell. -/
def wScoreNeg (r : Row) : Option ℚ := (scoreNegCell r).bind (fun c => pyFloat? (pyStrip c.text))

/-- Value written to `imps_hands`/`mps_hands` by the `numhands` cell. -/
def wNumhands (r : Row) : Option ℤ := (numhandsCell r).bind (fun c => pyInt? (pyStrip c.text))

/-- Value written by the "MPs Average" score cell (percent stripped). -/
def wScorePct (r : Row) : Option ℚ :=
  (scoreCellOnly r).bind (fun c => pyFloat? (dropPercent (pyStrip c.text)))

/-- Value written by the "Total Masterpoints" score cell. -/
def wScorePlain (r : Row) : Option ℚ := (scoreCellOnly r).bind (fun c => pyFloat? (pyStrip c.text))

/-- The state update a non-raising row performs, in normalized form. -/
def applyEff (r : Row) (s : Stats) : Stats :=
  match branchIdx r with
  | some 0 =>
    let s1 := match wScoreNeg r with
      | some q => { s with imps_total := q }
      | Option.none => s
    (match wNumhands r with
      | some n => { s1 with imps_hands := n }
      | Option.none => s1)
  | some 1 =>
    (match wScoreNeg r with
      | some q => { s with imps_average := q }
      | Option.none => s)
  | some 2 =>
    let s1 := match wScorePct r with
      | some q => { s with mps_average := q }
      | Option.none => s
    (match wNumhands r with
      | some n => { s1 with mps_hands := n }
      | Option.none => s1)
  | some 3 =>
    (match wScorePlain r with
      | some q => { s with total_masterpoints := q }
      | Option.none => s)
  | _ => s

/-! ### HTTP world, timezone handshake and `scrape_bbo_hands` -/

/-- A response: final URL (post-redirect), body text, and the parsed
view BeautifulSoup would produce from that body. -/
structure Resp where
  url : String
  text : String
  doc : Doc
deriving DecidableEq

/-- An issued request: method, URL, form body, `Referer` header. -/
structure Req where
  method : String
  url : String
  body : List (String × String)
  referer : Option String
deriving DecidableEq

/-- The HTTP world: the response to the `k`-th request issued through
the session, `none` modelling a raised network exception. -/
abbrev Net := ℕ → Option Resp

/-- The authenticated landing page. -/
def landing_url : String := "https://www.bridgebase.com/myhands/index.php"

/-- The timezone form-POST endpoint. -/
def tz_post_url : String := "https://www.bridgebase.com/myhands/index.php?&from_login=1"

/-- Truncation toward zero, Python `int()` applied to a ratio. -/
def ratTruncToZero (q : ℚ) : ℤ := if 0 ≤ q then ⌊q⌋ else ⌈q⌉

/-- `get_local_timezone_offset` (lines 116-119): the local UTC offset in
seconds is divided by 60 and truncated toward zero by `int(...)`. -/
def get_local_timezone_offset (utcOffsetSeconds : ℚ) : ℤ :=
  ratTruncToZero (utcOffsetSeconds / 60)

/-- Observable outcome of `handle_timezone_redirect`: boolean result,
next request index, issued requests, logged messages. -/
structure TzResult where
  ok : Bool
  next : ℕ
  reqs : List Req
  msgs : List String
deriving DecidableEq

/-- The timezone POST with the offset as form data and `Referer` set to
the landing endpoint. -/
def tzPostReq (off : ℤ) : Req := ⟨"POST", tz_post_url, [("offset", toString off)], some landing_url⟩

/-- The GET-with-query-parameter variant of the timezone submission. -/
def tzAltReq (off : ℤ) : Req :=
  ⟨"GET", landing_url ++ "?offset=" ++ toString off, [], some landing_url⟩

/-- `handle_timezone_redirect` (lines 121-163): POST the offset; on a
missing authenticated-page marker retry once via the GET variant; any
exception or double failure yields `false`, never a raise. -/
def handle_timezone_redirect (utcOffSec : ℚ) (net : Net) (k : ℕ) : TzResult :=
  let off := get_local_timezone_offset utcOffSec
  let m0 := "Using timezone offset: " ++ toString off ++ " minutes"
  match net k with
  | Option.none => ⟨false, k + 1, [tzPostReq off], [m0, "Error handling timezone redirect"]⟩
  | some r =>
    if containsSub "logout.php" r.text then
      ⟨true, k + 1, [tzPostReq off], [m0, "Successfully handled timezone redirect"]⟩
    else
      match net (k + 1) with
      | Option.none =>
        ⟨false, k + 2, [tzPostReq off, tzAltReq off], [m0, "Error handling timezone redirect"]⟩
      | some r2 =>
        if containsSub "logout.php" r2.text then
          ⟨true, k + 2, [tzPostReq off, tzAltReq off],
            [m0, "Successfully handled timezone redirect via alternative URL"]⟩
        else
          ⟨false, k + 2, [tzPostReq off, tzAltReq off], [m0, "Failed to handle timezone redirect"]⟩

/-- Observable outcome of `scrape_bbo_hands`: the returned
`(soup, table)` pair (`none` is the `(None, None)` sentinel), the
issued requests, and the logged/displayed messages. -/
structure ScrapeResult where
  res : Option (Doc × Table)
  reqs : List Req
  msgs : List String
deriving DecidableEq

/-- The landing-page pre-check GET. -/
def precheckReq : Req := ⟨"GET", landing_url, [], Option.none⟩

/-- The data GET to the target URL with `Referer` set to the landing page. -/
def dataReq (url : String) : Req := ⟨"GET", url, [], some landing_url⟩

/-- Tail of `scrape_bbo_hands` past the session/JS checks: no-saved-hands
marker, then table location. -/
def scrape_finish (resp : Resp) (reqs : List Req) (msgs : List String) : ScrapeResult :=
  if containsSub "You have no saved hands" resp.text then
    ⟨Option.none, reqs, msgs ++ ["No hands found"]⟩
  else
    match locate_table resp.doc.tables with
    | some t => ⟨some (resp.doc, t), reqs, msgs⟩
    | Option.none => ⟨Option.none, reqs, msgs ++ ["No table found"]⟩

/-- `scrape_bbo_hands` (lines 298-394): landing pre-check, data GET,
optional timezone handling with one re-GET, no-saved-hands check, table
location.  Every early exit returns the `(None, None)` sentinel; the
try/except turns any network exception into the same sentinel. -/
def scrape_bbo_hands (utcOffSec : ℚ) (net : Net) (url : String) (silent : Bool) : ScrapeResult :=
  match net 0 with
  | Option.none =>
    ⟨Option.none, [precheckReq], ["Scraping error"] ++ (if silent then [] else ["Error retrieving data"])⟩
  | some refresh =>
    if containsSub "login.php" refresh.url then
      ⟨Option.none, [precheckReq], ["Session has expired. Please login again."]⟩
    else
      let m1 := ["Fetching: " ++ url] ++ (if silent then [] else ["Retrieving data from BBO..."])
      match net 1 with
      | Option.none =>
        ⟨Option.none, [precheckReq, dataReq url],
          m1 ++ ["Scraping error"] ++ (if silent then [] else ["Error retrieving data"])⟩
      | some resp1 =>
        if containsSub "login.php" resp1.url then
          ⟨Option.none, [precheckReq, dataReq url],
            m1 ++ ["Session expired", "Session expired during data retrieval"]⟩
        else if containsSub "Javascript support is needed" resp1.text then
          let m2 := m1 ++ (if silent then [] else ["Hit JavaScript requirement - trying to handle timezone..."])
          let tzr := handle_timezone_redirect utcOffSec net 2
          match net tzr.next with
          | Option.none =>
            ⟨Option.none, [precheckReq, dataReq url] ++ tzr.reqs ++ [dataReq url],
              m2 ++ tzr.msgs ++ ["Scraping error"] ++ (if silent then [] else ["Error retrieving data"])⟩
          | some resp2 =>
            scrape_finish resp2 ([precheckReq, dataReq url] ++ tzr.reqs ++ [dataReq url])
              (m2 ++ tzr.msgs)
        else
          scrape_finish resp1 [precheckReq, dataReq url] m1

/-! ### Login form assembly (src/pages/2_BBO.py lines 203-237) -/

/-- An `<input>` element of the parsed login form. -/
structure FormInput where
  typ : String
  nameA : Option String
  valA : Option String
deriving DecidableEq

/-- Hidden-field discovery: every `input` of type `hidden` carrying a
`name` contributes `name -> value` (the value attribute may be absent). -/
def hidden_fields_of (form : Option (List FormInput)) : List (String × Option String) :=
  match form with
  | Option.none => []
  | some fields =>
    (fields.filter (fun i => i.typ = "hidden")).foldl
      (fun acc i =>
        match i.nameA with
        | some n => pyInsert acc n i.valA
        | Option.none => acc) []

/-- Second synthesized default: `count` is added only when absent. -/
def with_count_default (hf1 : List (String × Option String)) : List (String × Option String) :=
  if (pyLookup hf1 "count").isNone then pyInsert hf1 "count" (some "1") else hf1

/-- Synthesized defaults: `t` and `count` are added only when absent. -/
def with_login_defaults (hf : List (String × Option String)) : List (String × Option String) :=
  with_count_default
    (if (pyLookup hf "t").isNone then pyInsert hf "t" (some "/myhands/index.php?") else hf)

/-- The login POST body: base credentials/submit/keep fields updated
with all (defaulted) hidden fields. -/
def build_login_data (username password : String) (form : Option (List FormInput)) :
    List (String × Option String) :=
  let hidden := with_login_defaults (hidden_fields_of form)
  pyUpdate
    [("username", some username), ("password", some password),
     ("submit", some "Login"), ("keep", some "on")] hidden

/-- Disjunction of the four known selector patterns. -/
def knownSelectorHit (t : Table) : Bool :=
  t.cls.contains "body" || t.tid = some "hand_results" ||
    t.cls.contains "hands" || t.cls.contains "handlist"

/-- Keys of an association list in order. -/
def keysOf {κ α : Type} (d : List (κ × α)) : List κ := d.map Prod.fst

/-- The characters of one `name=value` line. -/
def encodePair (p : String × String) : List Char := p.1.data ++ '=' :: p.2.data

/-- The newline-separated `name=value` encoding of a pair list. -/
def encodeLines (ps : List (String × String)) : String := ⟨joinChar '\n' (ps.map encodePair)⟩

/-- The cookie dict obtained by inserting the given string pairs in order. -/
def cookieDictOf (ps : List (String × String)) : List (Py × Py) :=
  ps.foldl (fun a p => pyInsertPy a (Py.str p.1) (Py.str p.2)) []

/-- Any two distinct rows of the list enter different label branches
(rows entering no branch are unconstrained). -/
def distinctBranches (rows : List Row) : Prop :=
  ∀ x ∈ rows, ∀ y ∈ rows,
    x = y ∨ branchIdx x = Option.none ∨ branchIdx y = Option.none ∨ branchIdx x ≠ branchIdx y

/-- Per-field write of a row: `imps_total` (branch 0 score cell). -/
def fvImpsTotal (r : Row) : Option ℚ :=
  if branchIdx r = some 0 then wScoreNeg r else Option.none

/-- Per-field write of a row: `imps_hands` (branch 0 numhands cell). -/
def fvImpsHands (r : Row) : Option ℤ :=
  if branchIdx r = some 0 then wNumhands r else Option.none

/-- Per-field write of a row: `imps_average` (branch 1 score cell). -/
def fvImpsAvg (r : Row) : Option ℚ :=
  if branchIdx r = some 1 then wScoreNeg r else Option.none

/-- Per-field write of a row: `mps_average` (branch 2 score cell). -/
def fvMpsAvg (r : Row) : Option ℚ :=
  if branchIdx r = some 2 then wScorePct r else Option.none

/-- Per-field write of a row: `mps_hands` (branch 2 numhands cell). -/
def fvMpsHands (r : Row) : Option ℤ :=
  if branchIdx r = some 2 then wNumhands r else Option.none

/-- Per-field write of a row: `total_masterpoints` (branch 3 score cell). -/
def fvTotalMp (r : Row) : Option ℚ :=
  if branchIdx r = some 3 then wScorePlain r else Option.none

/-- First defined value of `f` along a row list. -/
def firstSome {α : Type} (f : Row → Option α) : List Row → Option α
  | [] => Option.none
  | r :: rs =>
    match f r with
    | some v => some v
    | Option.none => firstSome f rs

/-! ## Theorems -/

/-- Claim C1: when the landing-page pre-check GET of `scrape_bbo_hands`
ends on a final URL containing the login-redirect marker, the call
returns the session-expired outcome immediately — the `(None, None)`
sentinel with the session-expired message — and the request trace is
exactly the one landing GET, so the data GET to the target URL is never
issued and no re-authenticating request is made. -/
theorem c1_precheck_login_redirect_expires (utcOffSec : ℚ) (net : Net) (url : String)
    (silent : Bool) (r : Resp) (h0 : net 0 = some r)
    (hl : containsSub "login.php" r.url = true) :
    (scrape_bbo_hands utcOffSec net url silent).res = Option.none ∧
    (scrape_bbo_hands utcOffSec net url silent).reqs = [precheckReq] ∧
    (scrape_bbo_hands utcOffSec net url silent).msgs =
      ["Session has expired. Please login again."] ∧
    ∀ q ∈ (scrape_bbo_hands utcOffSec net url silent).reqs,
      q.method = "GET" ∧ q.url = landing_url ∧ q.body = [] := by
  unfold scrape_bbo_hands
  rw [h0]
  simp [hl, precheckReq]

/-- Witness for C1 at a concrete world whose pre-check response lands on
the login page. -/
theorem c1_precheck_login_redirect_witness :
    (scrape_bbo_hands 0
      (fun _ => some ⟨"https://www.bridgebase.com/myhands/myhands_login.php?t=1", "", emptyDoc⟩)
      "https://www.bridgebase.com/myhands/hands.php?username=x" false).reqs = [precheckReq] :=
  (c1_precheck_login_redirect_expires 0
    (fun _ => some ⟨"https://www.bridgebase.com/myhands/myhands_login.php?t=1", "", emptyDoc⟩)
    "https://www.bridgebase.com/myhands/hands.php?username=x" false
    ⟨"https://www.bridgebase.com/myhands/myhands_login.php?t=1", "", emptyDoc⟩
    rfl (by decide)).2.1

/-- Claim C4 counterexample: a fetch whose data response carries the
no-saved-records marker and a fetch whose pre-check lands on the login
redirect return the very same `(None, None)` value, so the caller of
`scrape_bbo_hands` cannot tell the `NoData` outcome from the
`SessionExpired` outcome by the returned result. -/
theorem c4_nodata_same_sentinel_cex :
    (scrape_bbo_hands 0
      (fun _ => some ⟨"https://www.bridgebase.com/myhands/myhands_login.php?t=1", "", emptyDoc⟩)
      "https://u" false).res =
    (scrape_bbo_hands 0
      (fun n => if n = 0 then some ⟨"https://www.bridgebase.com/myhands/index.php", "logout.php", emptyDoc⟩
        else some ⟨"https://u", "You have no saved hands", emptyDoc⟩)
      "https://u" false).res ∧
    containsSub "login.php" "https://www.bridgebase.com/myhands/myhands_login.php?t=1" = true ∧
    containsSub "You have no saved hands" "You have no saved hands" = true ∧
    (scrape_bbo_hands 0
      (fun _ => some ⟨"https://www.bridgebase.com/myhands/myhands_login.php?t=1", "", emptyDoc⟩)
      "https://u" false).res = Option.none := by
  refine ⟨?_, ?_, ?_, ?_⟩ <;> decide

/-- Claim C4 (amended): a data response carrying the no-saved-records
marker makes `scrape_bbo_hands` return before table location with the
`(None, None)` sentinel — the same returned value as the session-expired
and table-not-found exits — and the outcome is recorded only in the
emitted messages, which here are the fetch notices followed by the
no-hands log message (no error and no markup-mismatch message). -/
theorem c4_nodata_marker_outcome (utcOffSec : ℚ) (net : Net) (url : String) (silent : Bool)
    (r0 r1 : Resp) (h0 : net 0 = some r0) (hn0 : containsSub "login.php" r0.url = false)
    (h1 : net 1 = some r1) (hn1 : containsSub "login.php" r1.url = false)
    (hjs : containsSub "Javascript support is needed" r1.text = false)
    (hmark : containsSub "You have no saved hands" r1.text = true) :
    (scrape_bbo_hands utcOffSec net url silent).res = Option.none ∧
    (scrape_bbo_hands utcOffSec net url silent).reqs = [precheckReq, dataReq url] ∧
    (scrape_bbo_hands utcOffSec net url silent).msgs =
      ["Fetching: " ++ url] ++ (if silent then [] else ["Retrieving data from BBO..."]) ++
        ["No hands found"] := by
  unfold scrape_bbo_hands scrape_finish
  rw [h0]
  simp [hn0, h1, hn1, hjs, hmark]

/-- Witness for C4's amended theorem at a concrete no-saved-hands world. -/
theorem c4_nodata_marker_witness :
    (scrape_bbo_hands 0
      (fun n => if n = 0 then some ⟨"https://www.bridgebase.com/myhands/index.php", "logout.php", emptyDoc⟩
        else some ⟨"https://u", "You have no saved hands", emptyDoc⟩)
      "https://u" true).msgs = ["Fetching: https://u", "No hands found"] :=
  (c4_nodata_marker_outcome 0
    (fun n => if n = 0 then some ⟨"https://www.bridgebase.com/myhands/index.php", "logout.php", emptyDoc⟩
      else some ⟨"https://u", "You have no saved hands", emptyDoc⟩)
    "https://u" true
    ⟨"https://www.bridgebase.com/myhands/index.php", "logout.php", emptyDoc⟩
    ⟨"https://u", "You have no saved hands", emptyDoc⟩
    rfl (by decide) rfl (by decide) (by decide) (by decide)).2.2

/-- The known-selector loop fails exactly when no table matches any of
the four known selector patterns. -/
theorem findKnownTable_eq_none_iff (ts : List Table) :
    findKnownTable ts = Option.none ↔ ∀ t ∈ ts, knownSelectorHit t = false := by
  unfold findKnownTable
  rcases h1 : ts.find? (fun t => t.cls.contains "body") with _ | t1
  · rcases h2 : ts.find? (fun t => t.tid = some "hand_results") with _ | t2
    · rcases h3 : ts.find? (fun t => t.cls.contains "hands") with _ | t3
      · simp only [h1, h2, h3]
        constructor
        · intro h4 t ht
          have a1 := List.find?_eq_none.mp h1 t ht
          have a2 := List.find?_eq_none.mp h2 t ht
          have a3 := List.find?_eq_none.mp h3 t ht
          have a4 := List.find?_eq_none.mp h4 t ht
          simp only [knownSelectorHit, Bool.or_eq_false_iff]
          simp at a1 a2 a3 a4
          exact ⟨⟨⟨by simpa using a1, by simpa using a2⟩, by simpa using a3⟩, by simpa using a4⟩
        · intro hall
          apply List.find?_eq_none.mpr
          intro t ht
          have := hall t ht
          simp [knownSelectorHit, Bool.or_eq_false_iff] at this
          simp [this]
      · simp only [h1, h2, h3]
        constructor
        · intro h4; cases h4
        · intro hall
          exfalso
          have hm := List.mem_of_find?_eq_some h3
          have hp := List.find?_some h3
          have := hall t3 hm
          simp [knownSelectorHit, Bool.or_eq_false_iff] at this
          simp [this] at hp
    · simp only [h1, h2]
      constructor
      · intro h4; cases h4
      · intro hall
        exfalso
        have hm := List.mem_of_find?_eq_some h2
        have hp := List.find?_some h2
        have := hall t2 hm
        simp [knownSelectorHit, Bool.or_eq_false_iff] at this
        simp [this] at hp
  · simp only [h1]
    constructor
    · intro h4; cases h4
    · intro hall
      exfalso
      have hm := List.mem_of_find?_eq_some h1
      have hp := List.find?_some h1
      have := hall t1 hm
      simp [knownSelectorHit, Bool.or_eq_false_iff] at this
      simp [this] at hp

/-- Claim C3: table location is a strict fallback: a known-selector
match is always the returned table (even when a generic heuristic match
exists elsewhere), the generic scan is consulted exactly when no known
selector matches, and in the fetch a document whose tables defeat both
methods yields the no-table `(None, None)` exit while a known-selector
match is returned with the document. -/
theorem c3_table_location_fallback_order :
    (∀ ts t, findKnownTable ts = some t → locate_table ts = some t) ∧
    (∀ ts, findKnownTable ts = Option.none → locate_table ts = genericScanTable ts) ∧
    (∀ ts, findKnownTable ts = Option.none ↔ ∀ t ∈ ts, knownSelectorHit t = false) ∧
    (∀ (utcOffSec : ℚ) (net : Net) (url : String) (silent : Bool) (r0 r1 : Resp),
      net 0 = some r0 → containsSub "login.php" r0.url = false →
      net 1 = some r1 → containsSub "login.php" r1.url = false →
      containsSub "Javascript support is needed" r1.text = false →
      containsSub "You have no saved hands" r1.text = false →
      (locate_table r1.doc.tables = Option.none →
        (scrape_bbo_hands utcOffSec net url silent).res = Option.none) ∧
      (∀ tb, findKnownTable r1.doc.tables = some tb →
        (scrape_bbo_hands utcOffSec net url silent).res = some (r1.doc, tb))) := by
  refine ⟨?_, ?_, findKnownTable_eq_none_iff, ?_⟩
  · intro ts t h
    unfold locate_table
    rw [h]
  · intro ts h
    unfold locate_table
    rw [h]
  · intro utcOffSec net url silent r0 r1 h0 hn0 h1 hn1 hjs hmark
    constructor
    · intro hloc
      unfold scrape_bbo_hands scrape_finish
      rw [h0]
      simp [hn0, h1, hn1, hjs, hmark, hloc]
    · intro tb htb
      have hloc : locate_table r1.doc.tables = some tb := by
        unfold locate_table; rw [htb]
      unfold scrape_bbo_hands scrape_finish
      rw [h0]
      simp [hn0, h1, hn1, hjs, hmark, hloc]

/-- Witness for C3 at a concrete document holding both a known-selector
table and a generic heuristic table: the known one wins inside a full
fetch. -/
theorem c3_table_location_witness :
    (scrape_bbo_hands 0
      (fun n => if n = 0 then some ⟨"https://www.bridgebase.com/myhands/index.php", "logout.php", emptyDoc⟩
        else some ⟨"https://u", "results",
          ⟨[⟨[], Option.none, 5, ["Date"]⟩, ⟨["hands"], Option.none, 0, []⟩], []⟩⟩)
      "https://u" false).res =
      some (⟨[⟨[], Option.none, 5, ["Date"]⟩, ⟨["hands"], Option.none, 0, []⟩], []⟩,
        ⟨["hands"], Option.none, 0, []⟩) :=
  ((c3_table_location_fallback_order.2.2.2 0
    (fun n => if n = 0 then some ⟨"https://www.bridgebase.com/myhands/index.php", "logout.php", emptyDoc⟩
      else some ⟨"https://u", "results",
        ⟨[⟨[], Option.none, 5, ["Date"]⟩, ⟨["hands"], Option.none, 0, []⟩], []⟩⟩)
    "https://u" false
    ⟨"https://www.bridgebase.com/myhands/index.php", "logout.php", emptyDoc⟩
    ⟨"https://u", "results",
      ⟨[⟨[], Option.none, 5, ["Date"]⟩, ⟨["hands"], Option.none, 0, []⟩], []⟩⟩
    rfl (by decide) rfl (by decide) (by decide) (by decide)).2
    ⟨["hands"], Option.none, 0, []⟩ (by decide))

/-- Claim C6 counterexample: at a UTC offset of 1172 seconds (19 minutes
and 32 seconds) the code's `int(total_seconds() / 60)` truncates to 19
while rounding the same quantity gives 20, so the computed offset does
not match `round((localTime - utcTime) in minutes)`. -/
theorem c6_offset_trunc_not_round_cex :
    get_local_timezone_offset 1172 = 19 ∧ round ((1172 : ℚ) / 60) = 20 ∧
    get_local_timezone_offset 1172 ≠ round ((1172 : ℚ) / 60) := by
  have h1 : get_local_timezone_offset 1172 = 19 := by
    unfold get_local_timezone_offset ratTruncToZero
    rw [if_pos (by norm_num : (0 : ℚ) ≤ 1172 / 60), Int.floor_eq_iff]
    norm_num
  have h2 : round ((1172 : ℚ) / 60) = 20 := by
    rw [round_eq, Int.floor_eq_iff]
    norm_num
  exact ⟨h1, h2, by rw [h1, h2]; decide⟩

/-- Claim C6 (amended): for a fixed wall-clock instant and timezone the
computed offset is the deterministic signed number of minutes obtained
by truncating `(localTime - utcTime) / 60` toward zero — which agrees
with `round` whenever the offset is a whole number of minutes — and the
timezone handshake POSTs exactly this value as the `offset` form field. -/
theorem c6_offset_minutes_trunc (utcOffSec : ℚ) :
    get_local_timezone_offset utcOffSec = ratTruncToZero (utcOffSec / 60) ∧
    ((utcOffSec / 60).den = 1 →
      get_local_timezone_offset utcOffSec = round (utcOffSec / 60)) ∧
    (∀ (net : Net) (k : ℕ),
      (handle_timezone_redirect utcOffSec net k).reqs.head? =
        some (tzPostReq (get_local_timezone_offset utcOffSec)) ∧
      (tzPostReq (get_local_timezone_offset utcOffSec)).body =
        [("offset", toString (get_local_timezone_offset utcOffSec))]) := by
  refine ⟨rfl, ?_, ?_⟩
  · intro hden
    have hq : ((utcOffSec / 60).num : ℚ) = utcOffSec / 60 := by
      rw [← Rat.den_eq_one_iff]; exact hden
    unfold get_local_timezone_offset ratTruncToZero
    rw [← hq]
    rcases le_or_lt 0 (((utcOffSec / 60).num : ℚ)) with h | h
    · simp [h, Int.floor_intCast, round_intCast]
    · simp [not_le.mpr h, Int.ceil_intCast, round_intCast]
  · intro net k
    constructor
    · unfold handle_timezone_redirect
      rcases net k with _ | r
      · rfl
      · by_cases hm : containsSub "logout.php" r.text
        · simp [hm]
        · rcases net (k + 1) with _ | r2
          · simp [hm]
          · by_cases hm2 : containsSub "logout.php" r2.text <;> simp [hm, hm2]
    · rfl

/-- Witness for C6's amended theorem at a whole-minute offset. -/
theorem c6_offset_minutes_witness :
    get_local_timezone_offset 7200 = round ((7200 : ℚ) / 60) :=
  (c6_offset_minutes_trunc 7200).2.1 (by
    rw [show (7200 : ℚ) / 60 = 120 by norm_num]
    simp [Rat.den_ofNat])

/-- Claim C7: the timezone handshake first POSTs the offset as form data
to the landing endpoint with `Referer` set to that same endpoint; when
the POST response lacks the authenticated-page marker it retries exactly
once via the GET-with-query-parameter variant; and every execution
returns a boolean — a network exception in either request or a double
failure yields `false` (the embedding is total by construction,
mirroring the function-level try/except, so no exception propagates). -/
theorem c7_tz_handshake_behavior (utcOffSec : ℚ) (net : Net) (k : ℕ) :
    (handle_timezone_redirect utcOffSec net k).reqs.head? =
      some (tzPostReq (get_local_timezone_offset utcOffSec)) ∧
    (tzPostReq (get_local_timezone_offset utcOffSec)).method = "POST" ∧
    (tzPostReq (get_local_timezone_offset utcOffSec)).url = tz_post_url ∧
    (tzPostReq (get_local_timezone_offset utcOffSec)).referer = some landing_url ∧
    (net k = Option.none →
      (handle_timezone_redirect utcOffSec net k).ok = false ∧
      (handle_timezone_redirect utcOffSec net k).reqs =
        [tzPostReq (get_local_timezone_offset utcOffSec)]) ∧
    (∀ r, net k = some r → containsSub "logout.php" r.text = true →
      (handle_timezone_redirect utcOffSec net k).ok = true ∧
      (handle_timezone_redirect utcOffSec net k).reqs =
        [tzPostReq (get_local_timezone_offset utcOffSec)]) ∧
    (∀ r, net k = some r → containsSub "logout.php" r.text = false →
      (handle_timezone_redirect utcOffSec net k).reqs =
        [tzPostReq (get_local_timezone_offset utcOffSec),
          tzAltReq (get_local_timezone_offset utcOffSec)]) ∧
    (∀ r, net k = some r → containsSub "logout.php" r.text = false →
      net (k + 1) = Option.none → (handle_timezone_redirect utcOffSec net k).ok = false) ∧
    (∀ r r2, net k = some r → containsSub "logout.php" r.text = false →
      net (k + 1) = some r2 →
      (handle_timezone_redirect utcOffSec net k).ok = containsSub "logout.php" r2.text) := by
  rcases hk : net k with _ | r
  · have he : handle_timezone_redirect utcOffSec net k =
        ⟨false, k + 1, [tzPostReq (get_local_timezone_offset utcOffSec)],
          ["Using timezone offset: " ++ toString (get_local_timezone_offset utcOffSec) ++
            " minutes", "Error handling timezone redirect"]⟩ := by
      unfold handle_timezone_redirect
      rw [hk]
    rw [he]
    refine ⟨rfl, rfl, rfl, rfl, fun _ => ⟨rfl, rfl⟩, ?_, ?_, ?_, ?_⟩
    · intro r h; cases h
    · intro r h; cases h
    · intro r h; cases h
    · intro r r2 h; cases h
  · by_cases hm : containsSub "logout.php" r.text
    · have he : handle_timezone_redirect utcOffSec net k =
          ⟨true, k + 1, [tzPostReq (get_local_timezone_offset utcOffSec)],
            ["Using timezone offset: " ++ toString (get_local_timezone_offset utcOffSec) ++
              " minutes", "Successfully handled timezone redirect"]⟩ := by
        unfold handle_timezone_redirect
        rw [hk]
        simp [hm]
      rw [he]
      refine ⟨rfl, rfl, rfl, rfl, ?_, ?_, ?_, ?_, ?_⟩
      · intro h; cases h
      · intro r2 h hm2; exact ⟨rfl, rfl⟩
      · intro r2 h hm2
        cases h
        rw [hm] at hm2
        cases hm2
      · intro r2 h hm2 _
        cases h
        rw [hm] at hm2
        cases hm2
      · intro r2 r3 h hm2 _
        cases h
        rw [hm] at hm2
        cases hm2
    · rw [Bool.not_eq_true] at hm
      rcases hk2 : net (k + 1) with _ | r2
      · have he : handle_timezone_redirect utcOffSec net k =
            ⟨false, k + 2,
              [tzPostReq (get_local_timezone_offset utcOffSec),
                tzAltReq (get_local_timezone_offset utcOffSec)],
              ["Using timezone offset: " ++ toString (get_local_timezone_offset utcOffSec) ++
                " minutes", "Error handling timezone redirect"]⟩ := by
          unfold handle_timezone_redirect
          rw [hk]
          simp [hm, hk2]
        rw [he]
        refine ⟨rfl, rfl, rfl, rfl, ?_, ?_, ?_, ?_, ?_⟩
        · intro h; cases h
        · intro r3 h hm2
          cases h
          rw [hm] at hm2
          cases hm2
        · intro r3 h hm2; exact rfl
        · intro r3 h hm2 _; exact rfl
        · intro r3 r4 h hm2 h2
          cases h2
      · have he : handle_timezone_redirect utcOffSec net k =
            ⟨containsSub "logout.php" r2.text, k + 2,
              [tzPostReq (get_local_timezone_offset utcOffSec),
                tzAltReq (get_local_timezone_offset utcOffSec)],
              ["Using timezone offset: " ++ toString (get_local_timezone_offset utcOffSec) ++
                " minutes",
                if containsSub "logout.php" r2.text then
                  "Successfully handled timezone redirect via alternative URL"
                else "Failed to handle timezone redirect"]⟩ := by
          unfold handle_timezone_redirect
          rw [hk]
          simp only [hm, Bool.false_eq_true, if_false]
          rw [hk2]
          by_cases hm2 : containsSub "logout.php" r2.text <;> simp [hm2]
        rw [he]
        refine ⟨rfl, rfl, rfl, rfl, ?_, ?_, ?_, ?_, ?_⟩
        · intro h; cases h
        · intro r3 h hm2
          cases h
          rw [hm] at hm2
          cases hm2
        · intro r3 h hm2; exact rfl
        · intro r3 h hm2 h2
          cases h2
        · intro r3 r4 h hm2 h2
          cases h2
          exact rfl

/-- Witness for C7 at a concrete world whose POST response lacks the
marker: the handshake issues exactly the POST and the GET retry. -/
theorem c7_tz_handshake_witness :
    (handle_timezone_redirect 0 (fun _ => some ⟨"", "nope", emptyDoc⟩) 0).reqs =
      [tzPostReq (get_local_timezone_offset 0), tzAltReq (get_local_timezone_offset 0)] :=
  (c7_tz_handshake_behavior 0 (fun _ => some ⟨"", "nope", emptyDoc⟩) 0).2.2.2.2.2.2.1
    ⟨"", "nope", emptyDoc⟩ rfl (by decide)

/-- `pyLookup` after inserting the looked-up key. -/
theorem pyLookup_insert_self {κ α : Type} [DecidableEq κ] (d : List (κ × α)) (k : κ) (v : α) :
    pyLookup (pyInsert d k v) k = some v := by
  induction d with
  | nil => simp [pyInsert, pyLookup]
  | cons kv rest ih =>
    by_cases h : kv.1 = k
    · simp [pyInsert, h, pyLookup]
    · simp [pyInsert, h, pyLookup, ih]

/-- `pyLookup` after inserting a different key. -/
theorem pyLookup_insert_ne {κ α : Type} [DecidableEq κ] (d : List (κ × α)) (k : κ) (v : α)
    (k' : κ) (h : k ≠ k') : pyLookup (pyInsert d k v) k' = pyLookup d k' := by
  induction d with
  | nil => simp [pyInsert, pyLookup, h]
  | cons kv rest ih =>
    by_cases h2 : kv.1 = k
    · simp [pyInsert, h2, pyLookup, h]
    · simp [pyInsert, h2, pyLookup, ih]

/-- A key is absent exactly when its lookup fails. -/
theorem pyLookup_eq_none_iff {κ α : Type} [DecidableEq κ] (d : List (κ × α)) (k : κ) :
    pyLookup d k = Option.none ↔ k ∉ keysOf d := by
  induction d with
  | nil => simp [pyLookup, keysOf]
  | cons kv rest ih =>
    by_cases h : kv.1 = k
    · simp [pyLookup, h, keysOf]
    · simp [pyLookup, h, keysOf, ih]
      intro h2
      exact fun h3 => h (h3 ▸ rfl)

/-- Key membership after an insertion. -/
theorem mem_keysOf_insert {κ α : Type} [DecidableEq κ] (d : List (κ × α)) (k : κ) (v : α)
    (a : κ) : a ∈ keysOf (pyInsert d k v) ↔ a = k ∨ a ∈ keysOf d := by
  induction d with
  | nil => simp [pyInsert, keysOf]
  | cons kv rest ih =>
    by_cases h : kv.1 = k
    · rw [show pyInsert (kv :: rest) k v = (k, v) :: rest from by simp [pyInsert, h]]
      rw [show keysOf ((k, v) :: rest) = k :: keysOf rest from rfl]
      rw [show keysOf (kv :: rest) = kv.1 :: keysOf rest from rfl, h]
      rw [List.mem_cons]
      tauto
    · rw [show pyInsert (kv :: rest) k v = kv :: pyInsert rest k v from by simp [pyInsert, h]]
      rw [show keysOf (kv :: pyInsert rest k v) = kv.1 :: keysOf (pyInsert rest k v) from rfl]
      rw [show keysOf (kv :: rest) = kv.1 :: keysOf rest from rfl]
      rw [List.mem_cons, List.mem_cons, ih]
      tauto

/-- Insertion preserves key distinctness. -/
theorem keysOf_insert_nodup {κ α : Type} [DecidableEq κ] (d : List (κ × α)) (k : κ) (v : α)
    (h : (keysOf d).Nodup) : (keysOf (pyInsert d k v)).Nodup := by
  induction d with
  | nil => simp [pyInsert, keysOf]
  | cons kv rest ih =>
    rw [show keysOf (kv :: rest) = kv.1 :: keysOf rest from rfl, List.nodup_cons] at h
    by_cases h2 : kv.1 = k
    · subst h2
      rw [show pyInsert (kv :: rest) kv.1 v = (kv.1, v) :: rest from by simp [pyInsert]]
      rw [show keysOf ((kv.1, v) :: rest) = kv.1 :: keysOf rest from rfl, List.nodup_cons]
      exact h
    · rw [show pyInsert (kv :: rest) k v = kv :: pyInsert rest k v from by simp [pyInsert, h2]]
      rw [show keysOf (kv :: pyInsert rest k v) = kv.1 :: keysOf (pyInsert rest k v) from rfl,
        List.nodup_cons]
      refine ⟨?_, ih h.2⟩
      rw [mem_keysOf_insert]
      rintro (h3 | h3)
      · exact h2 h3
      · exact h.1 h3

/-- Lookup through `pyUpdate`: the update layer wins where defined. -/
theorem pyLookup_update {κ α : Type} [DecidableEq κ] (d l : List (κ × α)) (k : κ)
    (h : (keysOf l).Nodup) :
    pyLookup (pyUpdate d l) k = (pyLookup l k).elim (pyLookup d k) some := by
  induction l generalizing d with
  | nil => simp [pyUpdate, pyLookup]
  | cons kv rest ih =>
    rw [show keysOf (kv :: rest) = kv.1 :: keysOf rest from rfl, List.nodup_cons] at h
    rw [show pyUpdate d (kv :: rest) = pyUpdate (pyInsert d kv.1 kv.2) rest from rfl,
      ih _ h.2]
    by_cases h2 : kv.1 = k
    · subst h2
      rw [(pyLookup_eq_none_iff rest kv.1).mpr h.1]
      simp [pyLookup, pyLookup_insert_self]
    · rw [show pyLookup (kv :: rest) k = pyLookup rest k from by simp [pyLookup, h2]]
      cases hl : pyLookup rest k with
      | none => simp [pyLookup_insert_ne _ _ _ _ h2]
      | some v => simp

/-- The hidden-field fold keeps keys distinct. -/
theorem hidden_fold_keys_nodup (fs : List FormInput) :
    ∀ (acc : List (String × Option String)), (keysOf acc).Nodup →
      (keysOf (fs.foldl (fun acc i =>
        match i.nameA with
        | some n => pyInsert acc n i.valA
        | Option.none => acc) acc)).Nodup := by
  induction fs with
  | nil => intro acc h; exact h
  | cons i rest ih =>
    intro acc h
    rw [List.foldl_cons]
    rcases hi : i.nameA with _ | n
    · exact ih acc h
    · exact ih _ (keysOf_insert_nodup _ _ _ h)

/-- The discovered hidden fields have distinct keys. -/
theorem hidden_fields_keys_nodup (form : Option (List FormInput)) :
    (keysOf (hidden_fields_of form)).Nodup := by
  rcases form with _ | fields
  · simp [hidden_fields_of, keysOf]
  · exact hidden_fold_keys_nodup (fields.filter (fun i => i.typ = "hidden")) []
      (by simp [keysOf])

/-- The `count` default layer keeps keys distinct. -/
theorem with_count_default_keys_nodup (hf1 : List (String × Option String))
    (h : (keysOf hf1).Nodup) : (keysOf (with_count_default hf1)).Nodup := by
  unfold with_count_default
  by_cases h2 : (pyLookup hf1 "count").isNone
  · rw [if_pos h2]
    exact keysOf_insert_nodup _ _ _ h
  · rw [if_neg h2]
    exact h

/-- Adding the synthesized defaults keeps keys distinct. -/
theorem with_login_defaults_keys_nodup (hf : List (String × Option String))
    (h : (keysOf hf).Nodup) : (keysOf (with_login_defaults hf)).Nodup := by
  unfold with_login_defaults
  apply with_count_default_keys_nodup
  by_cases ht : (pyLookup hf "t").isNone
  · rw [if_pos ht]
    exact keysOf_insert_nodup _ _ _ h
  · rw [if_neg ht]
    exact h

/-- The `count` default never overwrites a binding. -/
theorem with_count_default_lookup_some (hf1 : List (String × Option String)) (n : String)
    (v : Option String) (h : pyLookup hf1 n = some v) :
    pyLookup (with_count_default hf1) n = some v := by
  unfold with_count_default
  by_cases h2 : (pyLookup hf1 "count").isNone
  · rw [if_pos h2]
    by_cases hn : ("count" : String) = n
    · subst hn
      rw [h] at h2
      simp at h2
    · rw [pyLookup_insert_ne _ _ _ _ hn]
      exact h
  · rw [if_neg h2]
    exact h

/-- Defaults never overwrite a discovered binding. -/
theorem with_login_defaults_lookup_some (hf : List (String × Option String)) (n : String)
    (v : Option String) (h : pyLookup hf n = some v) :
    pyLookup (with_login_defaults hf) n = some v := by
  unfold with_login_defaults
  apply with_count_default_lookup_some
  by_cases ht : (pyLookup hf "t").isNone
  · rw [if_pos ht]
    by_cases hn : ("t" : String) = n
    · subst hn
      rw [h] at ht
      simp at ht
    · rw [pyLookup_insert_ne _ _ _ _ hn]
      exact h
  · rw [if_neg ht]
    exact h

/-- The `count` default layer leaves other keys unchanged. -/
theorem with_count_default_preserves (hf1 : List (String × Option String)) (n : String)
    (hn : n ≠ "count") : pyLookup (with_count_default hf1) n = pyLookup hf1 n := by
  unfold with_count_default
  by_cases h2 : (pyLookup hf1 "count").isNone
  · rw [if_pos h2, pyLookup_insert_ne _ _ _ _ (fun he => hn he.symm)]
  · rw [if_neg h2]

/-- A missing target-path field is synthesized. -/
theorem with_login_defaults_t (hf : List (String × Option String))
    (h : pyLookup hf "t" = Option.none) :
    pyLookup (with_login_defaults hf) "t" = some (some "/myhands/index.php?") := by
  unfold with_login_defaults
  rw [with_count_default_preserves _ _ (by decide)]
  rw [if_pos (show (pyLookup hf "t").isNone = true by rw [h]; rfl)]
  exact pyLookup_insert_self _ _ _

/-- A missing request-count field is synthesized. -/
theorem with_login_defaults_count (hf : List (String × Option String))
    (h : pyLookup hf "count" = Option.none) :
    pyLookup (with_login_defaults hf) "count" = some (some "1") := by
  unfold with_login_defaults
  have hc : pyLookup (if (pyLookup hf "t").isNone then
      pyInsert hf "t" (some "/myhands/index.php?") else hf) "count" = Option.none := by
    by_cases ht : (pyLookup hf "t").isNone
    · rw [if_pos ht, pyLookup_insert_ne _ _ _ _ (by decide)]
      exact h
    · rw [if_neg ht]
      exact h
  unfold with_count_default
  rw [if_pos (show (pyLookup (if (pyLookup hf "t").isNone then
      pyInsert hf "t" (some "/myhands/index.php?") else hf) "count").isNone = true
    by rw [hc]; rfl)]
  exact pyLookup_insert_self _ _ _

/-- Defaults do not create bindings other than `t` and `count`. -/
theorem with_login_defaults_lookup_none (hf : List (String × Option String)) (n : String)
    (h : pyLookup hf n = Option.none) (h1 : n ≠ "t") (h2 : n ≠ "count") :
    pyLookup (with_login_defaults hf) n = Option.none := by
  unfold with_login_defaults
  rw [with_count_default_preserves _ _ h2]
  by_cases ht : (pyLookup hf "t").isNone
  · rw [if_pos ht, pyLookup_insert_ne _ _ _ _ (fun he => h1 he.symm)]
    exact h
  · rw [if_neg ht]
    exact h

/-- Claim C8: the login POST body always carries the `username`,
`password`, `submit` and `keep` keys plus every discovered hidden field
with its discovered value; when the target-path field `t` or the
request-count field `count` is absent from the discovered hidden fields
the synthesized defaults are included, and discovered values for those
fields are never overwritten; undiscovered `username`/`password` keys
carry the supplied credentials. -/
theorem c8_login_data_fields (u p : String) (form : Option (List FormInput)) :
    (∀ n v, pyLookup (hidden_fields_of form) n = some v →
      pyLookup (build_login_data u p form) n = some v) ∧
    (pyLookup (hidden_fields_of form) "t" = Option.none →
      pyLookup (build_login_data u p form) "t" = some (some "/myhands/index.php?")) ∧
    (pyLookup (hidden_fields_of form) "count" = Option.none →
      pyLookup (build_login_data u p form) "count" = some (some "1")) ∧
    (pyLookup (build_login_data u p form) "username").isSome = true ∧
    (pyLookup (build_login_data u p form) "password").isSome = true ∧
    (pyLookup (build_login_data u p form) "submit").isSome = true ∧
    (pyLookup (build_login_data u p form) "keep").isSome = true ∧
    (pyLookup (hidden_fields_of form) "username" = Option.none →
      pyLookup (build_login_data u p form) "username" = some (some u)) ∧
    (pyLookup (hidden_fields_of form) "password" = Option.none →
      pyLookup (build_login_data u p form) "password" = some (some p)) := by
  have hnodup : (keysOf (with_login_defaults (hidden_fields_of form))).Nodup :=
    with_login_defaults_keys_nodup _ (hidden_fields_keys_nodup form)
  have hb : ∀ n, pyLookup (build_login_data u p form) n =
      (pyLookup (with_login_defaults (hidden_fields_of form)) n).elim
        (pyLookup [("username", some u), ("password", some p),
          ("submit", some "Login"), ("keep", some "on")] n) some := by
    intro n
    exact pyLookup_update _ _ n hnodup
  refine ⟨?_, ?_, ?_, ?_, ?_, ?_, ?_, ?_, ?_⟩
  · intro n v h
    rw [hb n, with_login_defaults_lookup_some _ _ _ h]
    rfl
  · intro h
    rw [hb "t", with_login_defaults_t _ h]
    rfl
  · intro h
    rw [hb "count", with_login_defaults_count _ h]
    rfl
  · rw [hb "username"]
    cases pyLookup (with_login_defaults (hidden_fields_of form)) "username" <;> rfl
  · rw [hb "password"]
    cases pyLookup (with_login_defaults (hidden_fields_of form)) "password" <;> rfl
  · rw [hb "submit"]
    cases pyLookup (with_login_defaults (hidden_fields_of form)) "submit" <;> rfl
  · rw [hb "keep"]
    cases pyLookup (with_login_defaults (hidden_fields_of form)) "keep" <;> rfl
  · intro h
    rw [hb "username",
      with_login_defaults_lookup_none _ _ h (by decide) (by decide)]
    rfl
  · intro h
    rw [hb "password",
      with_login_defaults_lookup_none _ _ h (by decide) (by decide)]
    rfl

/-- Witness for C8 at a concrete form carrying a hidden `t` and a token. -/
theorem c8_login_data_witness :
    pyLookup (build_login_data "me" "pw"
      (some [⟨"hidden", some "t", some "/x"⟩, ⟨"hidden", some "tok", some "abc"⟩])) "t" =
      some (some "/x") ∧
    pyLookup (build_login_data "me" "pw"
      (some [⟨"hidden", some "t", some "/x"⟩, ⟨"hidden", some "tok", some "abc"⟩])) "count" =
      some (some "1") :=
  ⟨(c8_login_data_fields "me" "pw"
      (some [⟨"hidden", some "t", some "/x"⟩, ⟨"hidden", some "tok", some "abc"⟩])).1
      "t" (some "/x") (by decide),
    (c8_login_data_fields "me" "pw"
      (some [⟨"hidden", some "t", some "/x"⟩, ⟨"hidden", some "tok", some "abc"⟩])).2.2.1
      (by decide)⟩

/-- A separator-free list splits to itself. -/
theorem splitOnChar_no_sep (c : Char) (l : List Char) (h : c ∉ l) :
    splitOnChar c l = [l] := by
  induction l with
  | nil => rfl
  | cons a rest ih =>
    rw [List.mem_cons, not_or] at h
    rw [splitOnChar, if_neg (fun he => h.1 he.symm), ih h.2]

/-- Splitting after a separator-free prefix peels that prefix. -/
theorem splitOnChar_append (c : Char) (l1 l2 : List Char) (h : c ∉ l1) :
    splitOnChar c (l1 ++ c :: l2) = l1 :: splitOnChar c l2 := by
  induction l1 with
  | nil => simp [splitOnChar]
  | cons a rest ih =>
    rw [List.mem_cons, not_or] at h
    rw [List.cons_append, splitOnChar, if_neg (fun he => h.1 he.symm), ih h.2]

/-- Splitting a join recovers the parts when none contains the separator. -/
theorem splitOnChar_joinChar (c : Char) (ls : List (List Char)) (hne : ls ≠ [])
    (h : ∀ l ∈ ls, c ∉ l) : splitOnChar c (joinChar c ls) = ls := by
  induction ls with
  | nil => cases hne rfl
  | cons l rest ih =>
    cases rest with
    | nil => exact splitOnChar_no_sep c l (h l (List.mem_cons_self _ _))
    | cons l2 rest2 =>
      rw [show joinChar c (l :: l2 :: rest2) = l ++ c :: joinChar c (l2 :: rest2) from rfl]
      rw [splitOnChar_append c _ _ (h l (List.mem_cons_self _ _))]
      rw [ih (by simp) (fun x hx => h x (List.mem_cons_of_mem _ hx))]

/-- First-occurrence split after a separator-free prefix. -/
theorem splitFirst_append (c : Char) (l1 l2 : List Char) (h : c ∉ l1) :
    splitFirst c (l1 ++ c :: l2) = (l1, some l2) := by
  induction l1 with
  | nil => simp [splitFirst]
  | cons a rest ih =>
    rw [List.mem_cons, not_or] at h
    rw [List.cons_append, splitFirst, if_neg (fun he => h.1 he.symm), ih h.2]

/-- The comprehension over a decoded cookie list succeeds and builds the
dict of the encoded pairs, from any starting accumulator. -/
theorem cookieFold_of_pairs (cs : List Py) (ps : List (String × String))
    (hpairs : List.Forall₂ (fun c pr => pySubscriptStr c "name" = some (Py.str pr.1) ∧
      pySubscriptStr c "value" = some (Py.str pr.2)) cs ps) :
    ∀ acc, cookieFold acc cs =
      some (ps.foldl (fun a pr => pyInsertPy a (Py.str pr.1) (Py.str pr.2)) acc) := by
  induction hpairs with
  | nil => intro acc; rfl
  | cons hpr _ ih =>
    intro acc
    simp only [cookieFold, hpr.1, hpr.2]
    rw [ih]
    rfl

/-- Processing the encoded lines builds the same dict as inserting the
pairs directly, from any starting accumulator. -/
theorem lineFold_of_pairs (ps : List (String × String))
    (hvalid : ∀ pr ∈ ps, ('\n' ∉ encodePair pr) ∧ '=' ∉ pr.1.data ∧
      stripChars (encodePair pr) = encodePair pr) :
    ∀ acc, (ps.map encodePair).foldl
      (fun acc line =>
        if line.contains '=' then
          match splitFirst '=' (stripChars line) with
          | (k, some v) => pyInsertPy acc (Py.str ⟨k⟩) (Py.str ⟨v⟩)
          | (_, Option.none) => acc
        else acc) acc =
      ps.foldl (fun a pr => pyInsertPy a (Py.str pr.1) (Py.str pr.2)) acc := by
  induction ps with
  | nil => intro acc; rfl
  | cons pr rest ih =>
    intro acc
    obtain ⟨hnl, heq, hstrip⟩ := hvalid pr (List.mem_cons_self _ _)
    rw [List.map_cons, List.foldl_cons, List.foldl_cons]
    rw [if_pos (by
      rw [show (encodePair pr).contains '=' = (encodePair pr).elem '=' from rfl]
      rw [List.elem_iff]
      exact List.mem_append_right _ (List.mem_cons_self _ _))]
    rw [hstrip, show encodePair pr = pr.1.data ++ '=' :: pr.2.data from rfl,
      splitFirst_append _ _ _ heq]
    exact ih (fun x hx => hvalid x (List.mem_cons_of_mem _ hx)) _

/-- Claim C5: `parse_cookie_text` attempts structured JSON parsing first
and falls back to line parsing on failure, and a structured list and a
newline-separated `name=value` text encoding the same pairs produce the
same effective cookie mapping. -/
theorem c5_cookie_parse_equivalence (ps : List (String × String)) (t : String) (cs : List Py)
    (hjson : jsonParse t = some (Py.list cs))
    (hpairs : List.Forall₂ (fun c pr => pySubscriptStr c "name" = some (Py.str pr.1) ∧
      pySubscriptStr c "value" = some (Py.str pr.2)) cs ps)
    (hline : jsonParse (encodeLines ps) = Option.none)
    (hvalid : ∀ pr ∈ ps, ('\n' ∉ encodePair pr) ∧ '=' ∉ pr.1.data ∧
      stripChars (encodePair pr) = encodePair pr) :
    parse_cookie_text t = Py.dict (cookieDictOf ps) ∧
    parse_cookie_text (encodeLines ps) = Py.dict (cookieDictOf ps) ∧
    (∀ s, jsonParse s = Option.none → parse_cookie_text s = parse_cookie_lines s) := by
  refine ⟨?_, ?_, ?_⟩
  · have h1 : parse_cookie_text t =
        match cookieFold [] cs with
        | some d => Py.dict d
        | Option.none => parse_cookie_lines t := by
      unfold parse_cookie_text
      rw [hjson]
    rw [h1, cookieFold_of_pairs cs ps hpairs []]
    rfl
  · have h1 : parse_cookie_text (encodeLines ps) = parse_cookie_lines (encodeLines ps) := by
      unfold parse_cookie_text
      rw [hline]
    rw [h1]
    unfold parse_cookie_lines cookieDictOf
    cases ps with
    | nil => rfl
    | cons pr rest =>
      rw [show (encodeLines (pr :: rest)).data =
        joinChar '\n' ((pr :: rest).map encodePair) from rfl]
      rw [splitOnChar_joinChar '\n' _ (by simp)
        (by
          intro x hx
          rw [List.mem_map] at hx
          obtain ⟨q, hq, rfl⟩ := hx
          exact (hvalid q hq).1)]
      rw [lineFold_of_pairs (pr :: rest) hvalid []]
  · intro s h
    unfold parse_cookie_text
    rw [h]

/-- Witness for C5 on a concrete two-cookie instance in both encodings. -/
theorem c5_cookie_parse_witness :
    parse_cookie_text "[\x7b\"name\":\"a\",\"value\":\"b\"\x7d,\x7b\"name\":\"c\",\"value\":\"d\"\x7d]" =
      Py.dict [(Py.str "a", Py.str "b"), (Py.str "c", Py.str "d")] ∧
    parse_cookie_text (encodeLines [("a", "b"), ("c", "d")]) =
      Py.dict [(Py.str "a", Py.str "b"), (Py.str "c", Py.str "d")] := by
  have h := c5_cookie_parse_equivalence [("a", "b"), ("c", "d")]
    "[\x7b\"name\":\"a\",\"value\":\"b\"\x7d,\x7b\"name\":\"c\",\"value\":\"d\"\x7d]"
    [Py.dict [(Py.str "name", Py.str "a"), (Py.str "value", Py.str "b")],
      Py.dict [(Py.str "name", Py.str "c"), (Py.str "value", Py.str "d")]]
    rfl
    (.cons ⟨rfl, rfl⟩ (.cons ⟨rfl, rfl⟩ .nil))
    rfl
    (by
      intro pr hpr
      simp only [List.mem_cons, List.not_mem_nil, or_false] at hpr
      rcases hpr with rfl | rfl <;> exact ⟨by decide, by decide, by decide⟩)
  exact ⟨h.1, h.2.1⟩

/-- Claim C10 counterexample: `[1, "x=y"]` decodes successfully as JSON,
so JSON decoding does not raise, yet `parse_cookie_text` falls back to
line parsing because the name/value comprehension raises on the element
`1` — the fallback is consulted on an input whose JSON decoding
succeeded. -/
theorem c10_fallback_after_decode_cex :
    jsonParse "[1, \"x=y\"]" = some (Py.list [Py.intV 1, Py.str "x=y"]) ∧
    parse_cookie_text "[1, \"x=y\"]" = parse_cookie_lines "[1, \"x=y\"]" ∧
    parse_cookie_text "[1, \"x=y\"]" = Py.dict [(Py.str "[1, \"x", Py.str "y\"]")] ∧
    parse_cookie_text "[1, \"x=y\"]" ≠ Py.list [Py.intV 1, Py.str "x=y"] := by
  refine ⟨rfl, rfl, rfl, ?_⟩
  intro h
  rw [show parse_cookie_text "[1, \"x=y\"]" =
    Py.dict [(Py.str "[1, \"x", Py.str "y\"]")] from rfl] at h
  exact Py.noConfusion h

/-- Claim C10 (amended): `parse_cookie_text` falls back to line parsing
when JSON decoding raises or when the decoded value is a list on which
the name/value comprehension raises; a valid-JSON non-list decode is
returned as-is with no mapping check, so for some valid-JSON non-list
inputs the result is not a cookie mapping at all and the fallback is
not consulted. -/
theorem c10_json_nonlist_passthrough (s : String) :
    (∀ v, jsonParse s = some v → (∀ cs, v ≠ Py.list cs) → parse_cookie_text s = v) ∧
    (∀ cs, jsonParse s = some (Py.list cs) → cookieFold [] cs = Option.none →
      parse_cookie_text s = parse_cookie_lines s) ∧
    (jsonParse s = Option.none → parse_cookie_text s = parse_cookie_lines s) := by
  refine ⟨?_, ?_, ?_⟩
  · intro v h hnl
    unfold parse_cookie_text
    rw [h]
    cases v <;> first | rfl | exact absurd rfl (hnl _)
  · intro cs h hfold
    have h1 : parse_cookie_text s =
        match cookieFold [] cs with
        | some d => Py.dict d
        | Option.none => parse_cookie_lines s := by
      unfold parse_cookie_text
      rw [h]
    rw [h1, hfold]
  · intro h
    unfold parse_cookie_text
    rw [h]

/-- Witness for C10's amended theorem: a valid-JSON object input is
returned as-is without the list comprehension or the line fallback. -/
theorem c10_json_nonlist_witness :
    parse_cookie_text "\x7b\"a\": 1\x7d" = Py.dict [(Py.str "a", Py.intV 1)] :=
  (c10_json_nonlist_passthrough "\x7b\"a\": 1\x7d").1 (Py.dict [(Py.str "a", Py.intV 1)]) rfl
    (fun _ h => Py.noConfusion h)

/-- The raise flag of the `numhands` tail is state-independent. -/
theorem procNum1_snd (s s' : Stats) (r : Row) : (procNum1 s r).2 = (procNum1 s' r).2 := by
  unfold procNum1
  rcases numhandsCell r with _ | c
  · rfl
  · simp only
    rcases pyInt? (pyStrip c.text) with _ | n <;> rfl

/-- The raise flag of the `mps_hands` tail is state-independent. -/
theorem procNum3_snd (s s' : Stats) (r : Row) : (procNum3 s r).2 = (procNum3 s' r).2 := by
  unfold procNum3
  rcases numhandsCell r with _ | c
  · rfl
  · simp only
    rcases pyInt? (pyStrip c.text) with _ | n <;> rfl

/-- Whether a row raises does not depend on the statistics accumulated
before it. -/
theorem procRow_snd (s : Stats) (r : Row) : (procRow s r).2 = rowRaises r := by
  unfold rowRaises procRow
  cases h0 : ((thCells r).isEmpty || (tdCells r).isEmpty) with
  | true => rfl
  | false =>
    simp only [Bool.false_eq_true, if_false]
    rcases thCells r with _ | ⟨c0, cs0⟩
    · rfl
    · simp only
      cases h1 : containsSub "IMPs Total" (pyStrip c0.text) with
      | true =>
        rw [if_pos rfl, if_pos rfl]
        rcases scoreNegCell r with _ | c
        · exact procNum1_snd s zeroStats r
        · simp only
          rcases pyFloat? (pyStrip c.text) with _ | q
          · rfl
          · exact procNum1_snd _ _ r
      | false =>
        simp only [Bool.false_eq_true, if_false]
        cases h2 : containsSub "IMPs Average" (pyStrip c0.text) with
        | true =>
          rw [if_pos rfl, if_pos rfl]
          rcases scoreNegCell r with _ | c
          · rfl
          · simp only
            rcases pyFloat? (pyStrip c.text) with _ | q <;> rfl
        | false =>
          simp only [Bool.false_eq_true, if_false]
          cases h3 : containsSub "MPs Average" (pyStrip c0.text) with
          | true =>
            rw [if_pos rfl, if_pos rfl]
            rcases scoreCellOnly r with _ | c
            · exact procNum3_snd s zeroStats r
            · simp only
              rcases pyFloat? (dropPercent (pyStrip c.text)) with _ | q
              · rfl
              · exact procNum3_snd _ _ r
          | false =>
            simp only [Bool.false_eq_true, if_false]
            cases h4 : containsSub "Total Masterpoints" (pyStrip c0.text) with
            | true =>
              rw [if_pos rfl, if_pos rfl]
              rcases scoreCellOnly r with _ | c
              · rfl
              · simp only
                rcases pyFloat? (pyStrip c.text) with _ | q <;> rfl
            | false => simp only [Bool.false_eq_true, if_false]

/-- A row entering no label branch leaves the state unchanged and never
raises. -/
theorem procRow_branch_none (s : Stats) (r : Row) (h : branchIdx r = Option.none) :
    procRow s r = (s, false) := by
  unfold branchIdx at h
  unfold procRow
  cases h0 : ((thCells r).isEmpty || (tdCells r).isEmpty) with
  | true => rfl
  | false =>
    rw [h0] at h
    simp only [Bool.false_eq_true, if_false] at h ⊢
    rcases hth : thCells r with _ | ⟨c0, cs0⟩
    · rfl
    · rw [hth] at h
      simp only at h ⊢
      cases h1 : containsSub "IMPs Total" (pyStrip c0.text) with
      | true => rw [h1] at h; simp at h
      | false =>
        rw [h1] at h
        simp only [Bool.false_eq_true, if_false] at h ⊢
        cases h2 : containsSub "IMPs Average" (pyStrip c0.text) with
        | true => rw [h2] at h; simp at h
        | false =>
          rw [h2] at h
          simp only [Bool.false_eq_true, if_false] at h ⊢
          cases h3 : containsSub "MPs Average" (pyStrip c0.text) with
          | true => rw [h3] at h; simp at h
          | false =>
            rw [h3] at h
            simp only [Bool.false_eq_true, if_false] at h ⊢
            cases h4 : containsSub "Total Masterpoints" (pyStrip c0.text) with
            | true => rw [h4] at h; simp at h
            | false =>
              rw [h4] at h
              simp only [Bool.false_eq_true, if_false] at h ⊢

/-- One unfolding step of the row loop. -/
theorem extractRows_cons (s : Stats) (r : Row) (rs : List Row) :
    extractRows s (r :: rs) =
      (match procRow s r with
       | (s1, true) => s1
       | (s1, false) => extractRows s1 rs) := rfl

/-- A raising row stops extraction; rows after it are never processed. -/
theorem extractRows_abort (r : Row) (hr : rowRaises r = true) :
    ∀ (xs ys : List Row) (s : Stats),
      extractRows s (xs ++ r :: ys) = extractRows s (xs ++ [r]) := by
  intro xs
  induction xs with
  | nil =>
    intro ys s
    rw [List.nil_append, List.nil_append, extractRows_cons, extractRows_cons]
    have hp : procRow s r = ((procRow s r).1, true) :=
      Prod.ext rfl (by rw [procRow_snd s r, hr])
    rw [hp]
  | cons x xs ih =>
    intro ys s
    rw [List.cons_append, List.cons_append, extractRows_cons, extractRows_cons]
    rcases hp : procRow s x with ⟨s1, b⟩
    cases b
    · exact ih ys s1
    · rfl

/-- A row entering no branch is skipped and extraction continues. -/
theorem extractRows_skip (r : Row) (hb : branchIdx r = Option.none) :
    ∀ (xs ys : List Row) (s : Stats),
      extractRows s (xs ++ r :: ys) = extractRows s (xs ++ ys) := by
  intro xs
  induction xs with
  | nil =>
    intro ys s
    rw [List.nil_append, List.nil_append, extractRows_cons, procRow_branch_none s r hb]
  | cons x xs ih =>
    intro ys s
    rw [List.cons_append, List.cons_append, extractRows_cons, extractRows_cons]
    rcases hp : procRow s x with ⟨s1, b⟩
    cases b
    · exact ih ys s1
    · rfl

/-- When no row enters a branch, the loop returns its input state. -/
theorem extractRows_all_none (rows : List Row) (h : ∀ r ∈ rows, branchIdx r = Option.none) :
    ∀ s, extractRows s rows = s := by
  induction rows with
  | nil => intro s; rfl
  | cons r rs ih =>
    intro s
    rw [extractRows_cons, procRow_branch_none s r (h r (List.mem_cons_self _ _))]
    exact ih (fun x hx => h x (List.mem_cons_of_mem _ hx)) s

/-- Claim C2 counterexample: a malformed value cell in one row aborts the
whole extraction loop, so a later well-formed row is left at its zero
default instead of being parsed — one bad row does affect fields from
other rows. -/
theorem c2_bad_row_aborts_cex :
    extract_player_statistics ⟨[],
      [⟨["odd"], [⟨true, [], "IMPs Average"⟩, ⟨false, ["score"], "abc"⟩]⟩,
       ⟨["even"], [⟨true, [], "Total Masterpoints"⟩, ⟨false, ["score"], "5"⟩]⟩]⟩ = zeroStats ∧
    extract_player_statistics ⟨[],
      [⟨["even"], [⟨true, [], "Total Masterpoints"⟩, ⟨false, ["score"], "5"⟩]⟩]⟩ =
      { zeroStats with total_masterpoints := 5 } ∧
    rowRaises ⟨["odd"], [⟨true, [], "IMPs Average"⟩, ⟨false, ["score"], "abc"⟩]⟩ = true := by
  exact ⟨by decide, by decide, by decide⟩

/-- Claim C2 (amended): `extract_player_statistics` is total by
construction (the function-level try/except returns the statistics
accumulated so far); a document whose processed rows match no aggregate
label yields the all-zero summary; an unmatched row is skipped and
extraction continues; but a row whose matched value cell is malformed
raises, aborting the loop: rows after it are never processed, so their
fields keep the values accumulated before the bad row. -/
theorem c2_stats_extraction_totality :
    (∀ doc : Doc, (∀ r ∈ doc.statRows, isOddEven r = true → branchIdx r = Option.none) →
      extract_player_statistics doc = zeroStats) ∧
    (∀ (tbs : List Table) (xs ys : List Row) (r : Row),
      isOddEven r = false ∨ branchIdx r = Option.none →
      extract_player_statistics ⟨tbs, xs ++ r :: ys⟩ =
        extract_player_statistics ⟨tbs, xs ++ ys⟩) ∧
    (∀ (tbs : List Table) (xs ys : List Row) (r : Row),
      isOddEven r = true → rowRaises r = true →
      extract_player_statistics ⟨tbs, xs ++ r :: ys⟩ =
        extract_player_statistics ⟨tbs, xs ++ [r]⟩) := by
  refine ⟨?_, ?_, ?_⟩
  · intro doc h
    unfold extract_player_statistics
    apply extractRows_all_none
    intro r hr
    rw [List.mem_filter] at hr
    exact h r hr.1 hr.2
  · intro tbs xs ys r h
    unfold extract_player_statistics
    rcases h with h | h
    · simp only [List.filter_append, List.filter_cons, h, Bool.false_eq_true, if_false]
    · by_cases hodd : isOddEven r = true
      · simp only [List.filter_append, List.filter_cons, hodd, if_true]
        exact extractRows_skip r h _ _ _
      · rw [Bool.not_eq_true] at hodd
        simp only [List.filter_append, List.filter_cons, hodd, Bool.false_eq_true, if_false]
  · intro tbs xs ys r hodd hr
    unfold extract_player_statistics
    simp only [List.filter_append, List.filter_cons, hodd, if_true]
    exact extractRows_abort r hr _ _ _

/-- Witness for C2's amended theorem: appending rows after a raising row
does not change the result. -/
theorem c2_stats_extraction_witness :
    extract_player_statistics ⟨[],
      [⟨["odd"], [⟨true, [], "IMPs Total"⟩, ⟨false, ["negscore"], "x"⟩]⟩,
       ⟨["even"], [⟨true, [], "MPs Average"⟩, ⟨false, ["score"], "50"⟩]⟩]⟩ =
      extract_player_statistics ⟨[],
        [⟨["odd"], [⟨true, [], "IMPs Total"⟩, ⟨false, ["negscore"], "x"⟩]⟩]⟩ :=
  c2_stats_extraction_totality.2.2 [] []
    [⟨["even"], [⟨true, [], "MPs Average"⟩, ⟨false, ["score"], "50"⟩]⟩]
    ⟨["odd"], [⟨true, [], "IMPs Total"⟩, ⟨false, ["negscore"], "x"⟩]⟩
    (by decide) (by decide)

/-- Branch classification: a row without both cell kinds. -/
theorem branchIdx_empty (r : Row) (h : ((thCells r).isEmpty || (tdCells r).isEmpty) = true) :
    branchIdx r = Option.none := by
  unfold branchIdx
  rw [h, if_pos rfl]

/-- Branch classification: "IMPs Total" label. -/
theorem branchIdx_zero (r : Row) (c0 : Cell) (cs0 : List Cell)
    (h0 : ((thCells r).isEmpty || (tdCells r).isEmpty) = false)
    (hth : thCells r = c0 :: cs0)
    (h1 : containsSub "IMPs Total" (pyStrip c0.text) = true) :
    branchIdx r = some 0 := by
  unfold branchIdx
  rw [h0, hth]
  simp only [Bool.false_eq_true, if_false, h1, eq_self_iff_true, if_true]

/-- Branch classification: "IMPs Average" label. -/
theorem branchIdx_one (r : Row) (c0 : Cell) (cs0 : List Cell)
    (h0 : ((thCells r).isEmpty || (tdCells r).isEmpty) = false)
    (hth : thCells r = c0 :: cs0)
    (h1 : containsSub "IMPs Total" (pyStrip c0.text) = false)
    (h2 : containsSub "IMPs Average" (pyStrip c0.text) = true) :
    branchIdx r = some 1 := by
  unfold branchIdx
  rw [h0, hth]
  simp only [Bool.false_eq_true, if_false, h1, h2, eq_self_iff_true, if_true]

/-- Branch classification: "MPs Average" label. -/
theorem branchIdx_two (r : Row) (c0 : Cell) (cs0 : List Cell)
    (h0 : ((thCells r).isEmpty || (tdCells r).isEmpty) = false)
    (hth : thCells r = c0 :: cs0)
    (h1 : containsSub "IMPs Total" (pyStrip c0.text) = false)
    (h2 : containsSub "IMPs Average" (pyStrip c0.text) = false)
    (h3 : containsSub "MPs Average" (pyStrip c0.text) = true) :
    branchIdx r = some 2 := by
  unfold branchIdx
  rw [h0, hth]
  simp only [Bool.false_eq_true, if_false, h1, h2, h3, eq_self_iff_true, if_true]

/-- Branch classification: "Total Masterpoints" label. -/
theorem branchIdx_three (r : Row) (c0 : Cell) (cs0 : List Cell)
    (h0 : ((thCells r).isEmpty || (tdCells r).isEmpty) = false)
    (hth : thCells r = c0 :: cs0)
    (h1 : containsSub "IMPs Total" (pyStrip c0.text) = false)
    (h2 : containsSub "IMPs Average" (pyStrip c0.text) = false)
    (h3 : containsSub "MPs Average" (pyStrip c0.text) = false)
    (h4 : containsSub "Total Masterpoints" (pyStrip c0.text) = true) :
    branchIdx r = some 3 := by
  unfold branchIdx
  rw [h0, hth]
  simp only [Bool.false_eq_true, if_false, h1, h2, h3, h4, eq_self_iff_true, if_true]

/-- Branch classification: no known label. -/
theorem branchIdx_none_of_labels (r : Row) (c0 : Cell) (cs0 : List Cell)
    (h0 : ((thCells r).isEmpty || (tdCells r).isEmpty) = false)
    (hth : thCells r = c0 :: cs0)
    (h1 : containsSub "IMPs Total" (pyStrip c0.text) = false)
    (h2 : containsSub "IMPs Average" (pyStrip c0.text) = false)
    (h3 : containsSub "MPs Average" (pyStrip c0.text) = false)
    (h4 : containsSub "Total Masterpoints" (pyStrip c0.text) = false) :
    branchIdx r = Option.none := by
  unfold branchIdx
  rw [h0, hth]
  simp only [Bool.false_eq_true, if_false, h1, h2, h3, h4]

/-- On a non-raising row, the loop body performs exactly the normalized
update `applyEff` and does not raise. -/
theorem procRow_safe (s : Stats) (r : Row) (h : rowRaises r = false) :
    procRow s r = (applyEff r s, false) := by
  have h2 := procRow_snd s r
  rw [h] at h2
  unfold procRow at h2 ⊢
  cases h0 : ((thCells r).isEmpty || (tdCells r).isEmpty) with
  | true =>
    rw [if_pos rfl]
    unfold applyEff
    rw [branchIdx_empty r h0]
  | false =>
    rw [h0] at h2
    simp only [Bool.false_eq_true, if_false] at h2 ⊢
    rcases hth : thCells r with _ | ⟨c0, cs0⟩
    · rw [hth] at h0
      simp at h0
    · rw [hth] at h2
      simp only at h2 ⊢
      cases h1 : containsSub "IMPs Total" (pyStrip c0.text) with
      | true =>
        rw [h1, if_pos rfl] at h2
        rw [if_pos rfl]
        unfold applyEff
        rw [branchIdx_zero r c0 cs0 h0 hth h1]
        simp only
        unfold wScoreNeg wNumhands
        rcases hsc : scoreNegCell r with _ | c
        · rw [hsc] at h2
          simp only [Option.none_bind]
          unfold procNum1 at h2 ⊢
          rcases hn : numhandsCell r with _ | c2
          · simp only [Option.none_bind]
          · rw [hn] at h2
            simp only at h2
            simp only [Option.some_bind]
            rcases hpn : pyInt? (pyStrip c2.text) with _ | n
            · rw [hpn] at h2
              simp at h2
            · rfl
        · rw [hsc] at h2
          simp only at h2
          simp only [Option.some_bind]
          rcases hq : pyFloat? (pyStrip c.text) with _ | q
          · rw [hq] at h2
            simp at h2
          · rw [hq] at h2
            simp only at h2
            unfold procNum1 at h2 ⊢
            rcases hn : numhandsCell r with _ | c2
            · simp only [Option.none_bind]
            · rw [hn] at h2
              simp only at h2
              simp only [Option.some_bind]
              rcases hpn : pyInt? (pyStrip c2.text) with _ | n
              · rw [hpn] at h2
                simp at h2
              · rfl
      | false =>
        rw [h1] at h2
        simp only [Bool.false_eq_true, if_false] at h2 ⊢
        cases hl2 : containsSub "IMPs Average" (pyStrip c0.text) with
        | true =>
          rw [hl2, if_pos rfl] at h2
          rw [if_pos rfl]
          unfold applyEff
          rw [branchIdx_one r c0 cs0 h0 hth h1 hl2]
          simp only
          unfold wScoreNeg
          rcases hsc : scoreNegCell r with _ | c
          · simp only [Option.none_bind]
          · rw [hsc] at h2
            simp only at h2
            simp only [Option.some_bind]
            rcases hq : pyFloat? (pyStrip c.text) with _ | q
            · rw [hq] at h2
              simp at h2
            · rfl
        | false =>
          rw [hl2] at h2
          simp only [Bool.false_eq_true, if_false] at h2 ⊢
          cases hl3 : containsSub "MPs Average" (pyStrip c0.text) with
          | true =>
            rw [hl3, if_pos rfl] at h2
            rw [if_pos rfl]
            unfold applyEff
            rw [branchIdx_two r c0 cs0 h0 hth h1 hl2 hl3]
            simp only
            unfold wScorePct wNumhands
            rcases hsc : scoreCellOnly r with _ | c
            · rw [hsc] at h2
              simp only [Option.none_bind]
              unfold procNum3 at h2 ⊢
              rcases hn : numhandsCell r with _ | c2
              · simp only [Option.none_bind]
              · rw [hn] at h2
                simp only at h2
                simp only [Option.some_bind]
                rcases hpn : pyInt? (pyStrip c2.text) with _ | n
                · rw [hpn] at h2
                  simp at h2
                · rfl
            · rw [hsc] at h2
              simp only at h2
              simp only [Option.some_bind]
              rcases hq : pyFloat? (dropPercent (pyStrip c.text)) with _ | q
              · rw [hq] at h2
                simp at h2
              · rw [hq] at h2
                simp only at h2
                unfold procNum3 at h2 ⊢
                rcases hn : numhandsCell r with _ | c2
                · simp only [Option.none_bind]
                · rw [hn] at h2
                  simp only at h2
                  simp only [Option.some_bind]
                  rcases hpn : pyInt? (pyStrip c2.text) with _ | n
                  · rw [hpn] at h2
                    simp at h2
                  · rfl
          | false =>
            rw [hl3] at h2
            simp only [Bool.false_eq_true, if_false] at h2 ⊢
            cases hl4 : containsSub "Total Masterpoints" (pyStrip c0.text) with
            | true =>
              rw [hl4, if_pos rfl] at h2
              rw [if_pos rfl]
              unfold applyEff
              rw [branchIdx_three r c0 cs0 h0 hth h1 hl2 hl3 hl4]
              simp only
              unfold wScorePlain
              rcases hsc : scoreCellOnly r with _ | c
              · simp only [Option.none_bind]
              · rw [hsc] at h2
                simp only at h2
                simp only [Option.some_bind]
                rcases hq : pyFloat? (pyStrip c.text) with _ | q
                · rw [hq] at h2
                  simp at h2
                · rfl
            | false =>
              rw [hl4] at h2
              simp only [Bool.false_eq_true, if_false] at h2 ⊢
              unfold applyEff
              rw [branchIdx_none_of_labels r c0 cs0 h0 hth h1 hl2 hl3 hl4]

/-- A row entering no branch performs no update. -/
theorem applyEff_none (r : Row) (s : Stats) (h : branchIdx r = Option.none) :
    applyEff r s = s := by
  unfold applyEff
  rw [h]

/-- Projection of the normalized update: `imps_total`. -/
theorem applyEff_imps_total (r : Row) (s : Stats) :
    (applyEff r s).imps_total = (fvImpsTotal r).getD s.imps_total := by
  unfold applyEff fvImpsTotal
  rcases hb : branchIdx r with _ | b
  · simp
  · rcases b with _ | _ | _ | _ | b
    · rcases wScoreNeg r with _ | q <;> rcases wNumhands r with _ | n <;> simp
    · rcases wScoreNeg r with _ | q <;> simp
    · rcases wScorePct r with _ | q <;> rcases wNumhands r with _ | n <;> simp
    · rcases wScorePlain r with _ | q <;> simp
    · simp

/-- Projection of the normalized update: `imps_hands`. -/
theorem applyEff_imps_hands (r : Row) (s : Stats) :
    (applyEff r s).imps_hands = (fvImpsHands r).getD s.imps_hands := by
  unfold applyEff fvImpsHands
  rcases hb : branchIdx r with _ | b
  · simp
  · rcases b with _ | _ | _ | _ | b
    · rcases wScoreNeg r with _ | q <;> rcases wNumhands r with _ | n <;> simp
    · rcases wScoreNeg r with _ | q <;> simp
    · rcases wScorePct r with _ | q <;> rcases wNumhands r with _ | n <;> simp
    · rcases wScorePlain r with _ | q <;> simp
    · simp

/-- Projection of the normalized update: `imps_average`. -/
theorem applyEff_imps_average (r : Row) (s : Stats) :
    (applyEff r s).imps_average = (fvImpsAvg r).getD s.imps_average := by
  unfold applyEff fvImpsAvg
  rcases hb : branchIdx r with _ | b
  · simp
  · rcases b with _ | _ | _ | _ | b
    · rcases wScoreNeg r with _ | q <;> rcases wNumhands r with _ | n <;> simp
    · rcases wScoreNeg r with _ | q <;> simp
    · rcases wScorePct r with _ | q <;> rcases wNumhands r with _ | n <;> simp
    · rcases wScorePlain r with _ | q <;> simp
    · simp

/-- Projection of the normalized update: `mps_average`. -/
theorem applyEff_mps_average (r : Row) (s : Stats) :
    (applyEff r s).mps_average = (fvMpsAvg r).getD s.mps_average := by
  unfold applyEff fvMpsAvg
  rcases hb : branchIdx r with _ | b
  · simp
  · rcases b with _ | _ | _ | _ | b
    · rcases wScoreNeg r with _ | q <;> rcases wNumhands r with _ | n <;> simp
    · rcases wScoreNeg r with _ | q <;> simp
    · rcases wScorePct r with _ | q <;> rcases wNumhands r with _ | n <;> simp
    · rcases wScorePlain r with _ | q <;> simp
    · simp

/-- Projection of the normalized update: `mps_hands`. -/
theorem applyEff_mps_hands (r : Row) (s : Stats) :
    (applyEff r s).mps_hands = (fvMpsHands r).getD s.mps_hands := by
  unfold applyEff fvMpsHands
  rcases hb : branchIdx r with _ | b
  · simp
  · rcases b with _ | _ | _ | _ | b
    · rcases wScoreNeg r with _ | q <;> rcases wNumhands r with _ | n <;> simp
    · rcases wScoreNeg r with _ | q <;> simp
    · rcases wScorePct r with _ | q <;> rcases wNumhands r with _ | n <;> simp
    · rcases wScorePlain r with _ | q <;> simp
    · simp

/-- Projection of the normalized update: `total_masterpoints`. -/
theorem applyEff_total_masterpoints (r : Row) (s : Stats) :
    (applyEff r s).total_masterpoints = (fvTotalMp r).getD s.total_masterpoints := by
  unfold applyEff fvTotalMp
  rcases hb : branchIdx r with _ | b
  · simp
  · rcases b with _ | _ | _ | _ | b
    · rcases wScoreNeg r with _ | q <;> rcases wNumhands r with _ | n <;> simp
    · rcases wScoreNeg r with _ | q <;> simp
    · rcases wScorePct r with _ | q <;> rcases wNumhands r with _ | n <;> simp
    · rcases wScorePlain r with _ | q <;> simp
    · simp

/-- Fieldwise extensionality for the summary record. -/
theorem statsExt (a b : Stats) (h1 : a.imps_total = b.imps_total)
    (h2 : a.imps_hands = b.imps_hands) (h3 : a.imps_average = b.imps_average)
    (h4 : a.mps_average = b.mps_average) (h5 : a.mps_hands = b.mps_hands)
    (h6 : a.total_masterpoints = b.total_masterpoints) : a = b := by
  cases a
  cases b
  simp_all

/-- Two optional writes to the same slot commute when one is absent. -/
theorem getD_comm {α : Type} (a b : Option α) (d : α)
    (h : a = Option.none ∨ b = Option.none) :
    a.getD (b.getD d) = b.getD (a.getD d) := by
  rcases h with rfl | rfl <;> simp

/-- Rows entering different branches never both write the same field. -/
theorem fv_disjoint {α : Type} (w : Row → Option α) (i : ℕ) (x y : Row)
    (h : branchIdx x ≠ branchIdx y) :
    (if branchIdx x = some i then w x else Option.none) = Option.none ∨
    (if branchIdx y = some i then w y else Option.none) = Option.none := by
  by_cases hx : branchIdx x = some i
  · right
    rw [if_neg (fun hy => h (hx.trans hy.symm))]
  · left
    rw [if_neg hx]

/-- Normalized updates of rows with distinct (or absent) branches
commute. -/
theorem applyEff_comm (x y : Row) (s : Stats)
    (h : x = y ∨ branchIdx x = Option.none ∨ branchIdx y = Option.none ∨
      branchIdx x ≠ branchIdx y) :
    applyEff x (applyEff y s) = applyEff y (applyEff x s) := by
  rcases h with rfl | h | h | h
  · rfl
  · rw [applyEff_none x _ h, applyEff_none x _ h]
  · rw [applyEff_none y _ h, applyEff_none y _ h]
  · apply statsExt <;>
      simp only [applyEff_imps_total, applyEff_imps_hands, applyEff_imps_average,
        applyEff_mps_average, applyEff_mps_hands, applyEff_total_masterpoints] <;>
      apply getD_comm
    · exact fv_disjoint wScoreNeg 0 x y h
    · exact fv_disjoint wNumhands 0 x y h
    · exact fv_disjoint wScoreNeg 1 x y h
    · exact fv_disjoint wScorePct 2 x y h
    · exact fv_disjoint wNumhands 2 x y h
    · exact fv_disjoint wScorePlain 3 x y h

/-- On raise-free rows the loop is a plain left fold of the normalized
updates. -/
theorem extractRows_safe (rows : List Row) (h : ∀ r ∈ rows, rowRaises r = false) :
    ∀ s, extractRows s rows = rows.foldl (fun a r => applyEff r a) s := by
  induction rows with
  | nil => intro s; rfl
  | cons r rs ih =>
    intro s
    rw [extractRows_cons, List.foldl_cons, procRow_safe s r (h r (List.mem_cons_self _ _))]
    exact ih (fun x hx => h x (List.mem_cons_of_mem _ hx)) (applyEff r s)

/-- `firstSome` over an append scans the first part first. -/
theorem firstSome_append {α : Type} (f : Row → Option α) (l1 l2 : List Row) :
    firstSome f (l1 ++ l2) =
      (match firstSome f l1 with
       | some v => some v
       | Option.none => firstSome f l2) := by
  induction l1 with
  | nil => simp [firstSome]
  | cons r rs ih =>
    rw [List.cons_append]
    rw [show firstSome f (r :: (rs ++ l2)) =
      (match f r with
       | some v => some v
       | Option.none => firstSome f (rs ++ l2)) from rfl]
    rw [show firstSome f (r :: rs) =
      (match f r with
       | some v => some v
       | Option.none => firstSome f rs) from rfl]
    rcases f r with _ | v
    · exact ih
    · rfl

/-- A field of the folded summary is the last write in the row list,
read through `firstSome` on the reversed list. -/
theorem foldl_applyEff_field {α : Type} (proj : Stats → α) (fv : Row → Option α)
    (hcompat : ∀ r s, proj (applyEff r s) = (fv r).getD (proj s)) :
    ∀ (rows : List Row) (s : Stats),
      proj (rows.foldl (fun a r => applyEff r a) s) =
        (firstSome fv rows.reverse).getD (proj s) := by
  intro rows
  induction rows with
  | nil => intro s; rfl
  | cons r rs ih =>
    intro s
    rw [List.foldl_cons, ih (applyEff r s), List.reverse_cons, firstSome_append]
    cases hfs : firstSome fv rs.reverse with
    | none =>
      cases hfv : fv r <;>
        simp [firstSome, hfv, hcompat r s]
    | some v => simp

/-- Claim C9 counterexample: two rows carrying distinct labels — one with
a malformed "IMPs Total" value, one with a well-formed "MPs Average"
value — give different summaries under the two orders (the bad row
aborts the loop before or after the good one), so permuting rows with
distinct labels can change the result. -/
theorem c9_perm_changes_result_cex :
    ([⟨["odd"], [⟨true, [], "IMPs Total"⟩, ⟨false, ["negscore"], "oops"⟩]⟩,
      ⟨["even"], [⟨true, [], "MPs Average"⟩, ⟨false, ["score"], "50"⟩]⟩] : List Row).Perm
      [⟨["even"], [⟨true, [], "MPs Average"⟩, ⟨false, ["score"], "50"⟩]⟩,
       ⟨["odd"], [⟨true, [], "IMPs Total"⟩, ⟨false, ["negscore"], "oops"⟩]⟩] ∧
    branchIdx ⟨["odd"], [⟨true, [], "IMPs Total"⟩, ⟨false, ["negscore"], "oops"⟩]⟩ = some 0 ∧
    branchIdx ⟨["even"], [⟨true, [], "MPs Average"⟩, ⟨false, ["score"], "50"⟩]⟩ = some 2 ∧
    extract_player_statistics ⟨[],
      [⟨["odd"], [⟨true, [], "IMPs Total"⟩, ⟨false, ["negscore"], "oops"⟩]⟩,
       ⟨["even"], [⟨true, [], "MPs Average"⟩, ⟨false, ["score"], "50"⟩]⟩]⟩ ≠
    extract_player_statistics ⟨[],
      [⟨["even"], [⟨true, [], "MPs Average"⟩, ⟨false, ["score"], "50"⟩]⟩,
       ⟨["odd"], [⟨true, [], "IMPs Total"⟩, ⟨false, ["negscore"], "oops"⟩]⟩]⟩ := by
  exact ⟨by decide, by decide, by decide, by decide⟩

/-- Claim C9 (amended): provided every matched value cell parses (no row
raises), each label is matched independently of row order: permuting
rows that carry distinct labels leaves the summary unchanged, and each
summary field equals the value of the last row in document order that
provides that field's cell, zero when no row does. -/
theorem c9_stats_row_order :
    (∀ dA dB : Doc, dA.statRows.Perm dB.statRows →
      (∀ r ∈ dA.statRows, rowRaises r = false) →
      distinctBranches dA.statRows →
      extract_player_statistics dA = extract_player_statistics dB) ∧
    (∀ doc : Doc, (∀ r ∈ doc.statRows, rowRaises r = false) →
      (extract_player_statistics doc).imps_total =
        (firstSome fvImpsTotal (doc.statRows.filter isOddEven).reverse).getD 0 ∧
      (extract_player_statistics doc).imps_hands =
        (firstSome fvImpsHands (doc.statRows.filter isOddEven).reverse).getD 0 ∧
      (extract_player_statistics doc).imps_average =
        (firstSome fvImpsAvg (doc.statRows.filter isOddEven).reverse).getD 0 ∧
      (extract_player_statistics doc).mps_average =
        (firstSome fvMpsAvg (doc.statRows.filter isOddEven).reverse).getD 0 ∧
      (extract_player_statistics doc).mps_hands =
        (firstSome fvMpsHands (doc.statRows.filter isOddEven).reverse).getD 0 ∧
      (extract_player_statistics doc).total_masterpoints =
        (firstSome fvTotalMp (doc.statRows.filter isOddEven).reverse).getD 0) := by
  constructor
  · intro dA dB hperm hsafe hdist
    unfold extract_player_statistics
    rw [extractRows_safe _ (fun r hr => hsafe r (List.mem_of_mem_filter hr)) zeroStats,
      extractRows_safe _
        (fun r hr => hsafe r (hperm.mem_iff.mpr (List.mem_of_mem_filter hr))) zeroStats]
    exact (hperm.filter isOddEven).foldl_eq'
      (fun x hx y hy z => applyEff_comm y x z (by
        rcases hdist x (List.mem_of_mem_filter hx) y (List.mem_of_mem_filter hy) with
          h | h | h | h
        · exact Or.inl h.symm
        · exact Or.inr (Or.inr (Or.inl h))
        · exact Or.inr (Or.inl h)
        · exact Or.inr (Or.inr (Or.inr (Ne.symm h))))) zeroStats
  · intro doc hsafe
    unfold extract_player_statistics
    rw [extractRows_safe _ (fun r hr => hsafe r (List.mem_of_mem_filter hr)) zeroStats]
    exact ⟨foldl_applyEff_field Stats.imps_total fvImpsTotal applyEff_imps_total _ zeroStats,
      foldl_applyEff_field Stats.imps_hands fvImpsHands applyEff_imps_hands _ zeroStats,
      foldl_applyEff_field Stats.imps_average fvImpsAvg applyEff_imps_average _ zeroStats,
      foldl_applyEff_field Stats.mps_average fvMpsAvg applyEff_mps_average _ zeroStats,
      foldl_applyEff_field Stats.mps_hands fvMpsHands applyEff_mps_hands _ zeroStats,
      foldl_applyEff_field Stats.total_masterpoints fvTotalMp applyEff_total_masterpoints
        _ zeroStats⟩

/-- Witness for C9's amended theorem: two well-formed rows with distinct
labels permute without changing the summary. -/
theorem c9_stats_row_order_witness :
    extract_player_statistics ⟨[],
      [⟨["odd"], [⟨true, [], "IMPs Total"⟩, ⟨false, ["score"], "7"⟩]⟩,
       ⟨["even"], [⟨true, [], "MPs Average"⟩, ⟨false, ["score"], "50"⟩]⟩]⟩ =
    extract_player_statistics ⟨[],
      [⟨["even"], [⟨true, [], "MPs Average"⟩, ⟨false, ["score"], "50"⟩]⟩,
       ⟨["odd"], [⟨true, [], "IMPs Total"⟩, ⟨false, ["score"], "7"⟩]⟩]⟩ :=
  c9_stats_row_order.1
    ⟨[], [⟨["odd"], [⟨true, [], "IMPs Total"⟩, ⟨false, ["score"], "7"⟩]⟩,
      ⟨["even"], [⟨true, [], "MPs Average"⟩, ⟨false, ["score"], "50"⟩]⟩]⟩
    ⟨[], [⟨["even"], [⟨true, [], "MPs Average"⟩, ⟨false, ["score"], "50"⟩]⟩,
      ⟨["odd"], [⟨true, [], "IMPs Total"⟩, ⟨false, ["score"], "7"⟩]⟩]⟩
    (by decide) (by decide) (by unfold distinctBranches; decide)

end BridgeBBO
